import Mathlib

/-!
# Verification of the LivyFlow observability and alerting subsystem

Shallow embedding of the alerting engine (`backend/app/alerting.py`), the
metrics collector (`backend/app/monitoring.py`), the synthetic monitor
(`backend/app/synthetic_monitoring.py`) and the log-pattern normalizer
(`backend/app/log_aggregation.py`).

Numeric values (Python floats, `datetime` instants, `time.time()` values)
are modelled as rationals; instants are seconds, `timedelta(minutes=m)`
becomes `m * 60`.  Python dicts keyed by strings are modelled as
association lists with insertion-order semantics; `deque(maxlen=n)` is a
list that evicts its front element on overflowing append.  `variance **
0.5` is modelled by an explicit square-root parameter `sqrtF` so that all
definitions stay executable; theorems quantify over it.
-/

set_option allowUnsafeReducibility true
attribute [local semireducible] Rat.mul Rat.div Rat.sub Rat.add Rat.neg Rat.inv Rat.floor

namespace LivyFlow

/-- Association-list lookup, mirroring Python `dict.get` /
`dict.__contains__` (first binding wins; real dicts have unique keys). -/
def lookupD {α : Type} (l : List (String × α)) (k : String) : Option α :=
  (l.find? (fun p => p.1 == k)).map (fun p => p.2)

/-- Python `dict[k] = v`: overwrite the (unique) binding in place if the
key is present, append it otherwise. -/
def dictInsert {α : Type} : List (String × α) → String → α →
    List (String × α)
  | [], k, v => [(k, v)]
  | p :: l, k, v =>
    if p.1 == k then (k, v) :: l else p :: dictInsert l k v

/-- `deque(maxlen=cap).append(x)`: evict the leftmost element when full. -/
def dequePush {α : Type} (cap : Nat) (l : List α) (x : α) : List α :=
  if l.length < cap then l ++ [x] else l.tail ++ [x]

/-! ## AnomalyDetector (`alerting.py`, class `AnomalyDetector`) -/

/-- One entry of `metric_histories`: `{'value': v, 'timestamp': t}`. -/
structure HistEntry where
  value : ℚ
  timestamp : ℚ
  deriving DecidableEq, Repr

/-- A `baselines[name]` record:
`{'mean', 'std_dev', 'min', 'max', 'updated_at'}`. -/
structure Baseline where
  mean : ℚ
  std_dev : ℚ
  min : ℚ
  max : ℚ
  updated_at : ℚ
  deriving DecidableEq, Repr

/-- State of `AnomalyDetector`: per-metric rolling history
(`deque(maxlen=window_size)`) and derived baselines. -/
structure DetectorState where
  window_size : Nat
  metric_histories : List (String × List HistEntry)
  baselines : List (String × Baseline)
  deriving Repr

/-- `AnomalyDetector(window_size=100)`. -/
def DetectorState.init : DetectorState :=
  { window_size := 100, metric_histories := [], baselines := [] }

/-- `defaultdict` access for `metric_histories[name]`. -/
def DetectorState.historyOf (d : DetectorState) (name : String) :
    List HistEntry :=
  (lookupD d.metric_histories name).getD []

/-- Sum of a list of rationals (`sum(values)`). -/
def sumQ (l : List ℚ) : ℚ := l.foldr (· + ·) 0

/-- Python `min(values)` over a non-empty list (0 as junk default). -/
def minQ : List ℚ → ℚ
  | [] => 0
  | x :: xs => xs.foldl min x

/-- Python `max(values)` over a non-empty list (0 as junk default). -/
def maxQ : List ℚ → ℚ
  | [] => 0
  | x :: xs => xs.foldl max x

/-- `mean = sum(values) / len(values)`. -/
def meanQ (l : List ℚ) : ℚ := sumQ l / l.length

/-- `variance = sum((x - mean) ** 2 for x in values) / len(values)`. -/
def varQ (l : List ℚ) : ℚ :=
  sumQ (l.map (fun x => (x - meanQ l) ^ 2)) / l.length

/-- The `{'mean', 'std_dev', 'min', 'max', 'updated_at'}` dict written by
`_update_baseline`.  `sqrtF` stands for `variance ** 0.5`; `now` is the
`time.time()` stamped into `updated_at`. -/
def baselineOf (sqrtF : ℚ → ℚ) (values : List ℚ) (now : ℚ) : Baseline :=
  { mean := meanQ values
    std_dev := sqrtF (varQ values)
    min := minQ values
    max := maxQ values
    updated_at := now }

/-- `AnomalyDetector._update_baseline`: recompute the baseline once at
least 3 samples exist. -/
def updateBaseline (sqrtF : ℚ → ℚ) (name : String) (now : ℚ)
    (d : DetectorState) : DetectorState :=
  let history := d.historyOf name
  if history.length < 3 then d
  else
    let values := history.map (fun e => e.value)
    { d with baselines := dictInsert d.baselines name (baselineOf sqrtF values now) }

/-- `AnomalyDetector.add_metric_value`: append `{'value', 'timestamp'}`
to the bounded history, then update the baseline. -/
def addMetricValue (sqrtF : ℚ → ℚ) (name : String) (value : ℚ)
    (timestamp : ℚ) (d : DetectorState) : DetectorState :=
  let e : HistEntry := { value := value, timestamp := timestamp }
  let hist := dequePush d.window_size (d.historyOf name) e
  let hs := dictInsert d.metric_histories name hist
  let d := { d with metric_histories := hs }
  updateBaseline sqrtF name timestamp d

/-- `AnomalyDetector.is_anomaly`: false on a missing baseline or a
cold-start window (< 10 samples); otherwise compare the z-score (with
stddev floored at 0.1) against the sensitivity. -/
def isAnomaly (name : String) (value : ℚ) (sensitivity : ℚ)
    (d : DetectorState) : Bool :=
  match lookupD d.baselines name with
  | none => false
  | some baseline =>
    if (d.historyOf name).length < 10 then false
    else decide (|value - baseline.mean| / max baseline.std_dev (1/10)
      > sensitivity)

/-- The suffix that a `deque(maxlen=cap)` retains out of a stream of
appends. -/
def lastWindow {α : Type} (cap : Nat) (l : List α) : List α :=
  l.drop (l.length - cap)

/-- The detector reached by feeding `samples` (value/timestamp pairs)
for one metric into a fresh `AnomalyDetector` via `add_metric_value`. -/
def detOf (sqrtF : ℚ → ℚ) (name : String) (samples : List (ℚ × ℚ)) :
    DetectorState :=
  samples.foldl (fun d p => addMetricValue sqrtF name p.1 p.2 d)
    DetectorState.init

/-- The values of the retained rolling window after those appends. -/
def windowValues (samples : List (ℚ × ℚ)) : List ℚ :=
  (lastWindow 100 samples).map (fun p => p.1)

/-! ## MetricsCollector summary (`monitoring.py`) -/

/-- `MetricsCollector._percentile`: sort the retained window and index at
`int(len * percentile)`, clamped to the last element. -/
def percentileOf (values : List ℚ) (percentile : ℚ) : ℚ :=
  let sorted_values := values.insertionSort (· ≤ ·)
  let index := (⌊(sorted_values.length : ℚ) * percentile⌋).toNat
  sorted_values.getD (min index (sorted_values.length - 1)) 0

/-- One histogram's entry in `get_metrics_summary()`. -/
structure HistSummary where
  count : Nat
  avg : ℚ
  min : ℚ
  max : ℚ
  p95 : ℚ
  p99 : ℚ
  deriving DecidableEq, Repr

/-- The histogram summary computed by
`MetricsCollector.get_metrics_summary` for one key's retained window. -/
def histSummary (values : List ℚ) : HistSummary :=
  { count := values.length
    avg := if values ≠ [] then sumQ values / values.length else 0
    min := if values ≠ [] then minQ values else 0
    max := if values ≠ [] then maxQ values else 0
    p95 := if values ≠ [] then percentileOf values (95/100) else 0
    p99 := if values ≠ [] then percentileOf values (99/100) else 0 }

/-! ## Alerting data model (`alerting.py`) -/

/-- `class AlertSeverity(Enum)`. -/
inductive AlertSeverity
  | low
  | medium
  | high
  | critical
  deriving DecidableEq, Repr

/-- `AlertSeverity.value`. -/
def AlertSeverity.value : AlertSeverity → String
  | .low => "low"
  | .medium => "medium"
  | .high => "high"
  | .critical => "critical"

/-- `class AlertStatus(Enum)`. -/
inductive AlertStatus
  | active
  | acknowledged
  | resolved
  | suppressed
  deriving DecidableEq, Repr

/-- `@dataclass AlertRule` (the `condition` string is kept as a string:
anything other than `gt`/`lt`/`eq`/`anomaly` evaluates to false). -/
structure AlertRule where
  id : String
  name : String
  description : String
  metric : String
  condition : String
  threshold : ℚ
  severity : AlertSeverity
  duration_minutes : ℚ := 5
  cooldown_minutes : ℚ := 30
  tags : List (String × String) := []
  escalation_policy : String := "default"
  enabled : Bool := true
  deriving DecidableEq, Repr

/-- The free-form `Alert.context` dict: rule-evaluation alerts carry
`{'metric', 'condition', 'tags'}` (`_create_alert`), synthetic failure
alerts carry `{'check_id', 'check_type', 'response_time_ms',
'response_status', 'failure_reason'}` (`_create_failure_alert`). -/
inductive AlertContext
  | ruleCtx (metric : String) (condition : String)
      (tags : List (String × String))
  | syntheticCtx (check_id : String) (response_time_ms : ℚ)
      (response_status : Option Nat) (failure_reason : Option String)
  deriving DecidableEq, Repr

/-- `alert.context.get('tags', {})`: the synthetic context has no
`tags` key, so it reads as the empty dict. -/
def AlertContext.tagsOf : AlertContext → List (String × String)
  | .ruleCtx _ _ tags => tags
  | .syntheticCtx _ _ _ _ => []

/-- `@dataclass Alert`. -/
structure Alert where
  id : String
  rule_id : String
  rule_name : String
  message : String
  severity : AlertSeverity
  status : AlertStatus
  metric_value : ℚ
  threshold : ℚ
  created_at : ℚ
  updated_at : ℚ
  acknowledged_by : Option String := none
  resolved_at : Option ℚ := none
  context : AlertContext
  deriving DecidableEq, Repr

/-- A configured suppression rule (a free-form dict in the source with
optional `severity` list and `tags` dict; Python truthiness makes an
empty list/dict behave like an absent key). -/
structure SuppressionRule where
  severity : List String := []
  tags : List (String × String) := []
  reason : String := "custom_rule"
  deriving DecidableEq, Repr

/-- Mutable state of `AlertManager` (channels and escalation policies
are modelled separately by the escalation executor). -/
structure ManagerState where
  rules : List (String × AlertRule)
  active_alerts : List (String × Alert)
  alert_history : List Alert
  alert_counts : List (String × List ℚ)
  suppression_rules : List SuppressionRule
  det : DetectorState
  deriving Repr

/-- The fresh `AlertManager()` store. -/
def ManagerState.init : ManagerState :=
  { rules := [], active_alerts := [], alert_history := []
    alert_counts := [], suppression_rules := [], det := DetectorState.init }

/-- Mutating a shared `Alert` object: the same object sits in
`active_alerts` and `alert_history`, so an in-place field update is
visible in both (keyed by the unique alert id). -/
def updateAlertInState (aid : String) (f : Alert → Alert)
    (s : ManagerState) : ManagerState :=
  { s with
    active_alerts := s.active_alerts.map
      (fun p => if p.1 == aid then (p.1, f p.2) else p)
    alert_history := s.alert_history.map
      (fun a => if a.id == aid then f a else a) }

/-- Summary snapshot consumed by `_evaluate_rule` (the
`get_metrics_summary()` dict). -/
structure MetricsSummary where
  counters : List (String × ℚ)
  gauges : List (String × ℚ)
  histograms : List (String × HistSummary)
  deriving Repr

/-- `AlertManager._get_metric_value`: gauges first, then counters, then
a histogram's average. -/
def getMetricValue (metric_name : String) (metrics : MetricsSummary) :
    Option ℚ :=
  match lookupD metrics.gauges metric_name with
  | some v => some v
  | none =>
    match lookupD metrics.counters metric_name with
    | some v => some v
    | none =>
      match lookupD metrics.histograms metric_name with
      | some h => some h.avg
      | none => none

/-- `AlertManager._check_condition`. -/
def checkCondition (rule : AlertRule) (value : ℚ) (det : DetectorState) :
    Bool :=
  if rule.condition == "gt" then decide (value > rule.threshold)
  else if rule.condition == "lt" then decide (value < rule.threshold)
  else if rule.condition == "eq" then
    decide (|value - rule.threshold| < 1/1000)
  else if rule.condition == "anomaly" then
    isAnomaly rule.metric value rule.threshold det
  else false

/-- `AlertManager._get_active_alert_for_rule`: first alert in the active
map with this rule id and status `active`. -/
def getActiveAlertForRule (rule_id : String) (s : ManagerState) :
    Option Alert :=
  (s.active_alerts.find?
    (fun p => p.2.rule_id == rule_id && p.2.status == AlertStatus.active)).map
    (fun p => p.2)

/-- `AlertManager._is_cooldown_active`: any retained history alert for
the rule created within the trailing `cooldown_minutes` window. -/
def isCooldownActive (rule_id : String) (now : ℚ) (s : ManagerState) :
    Bool :=
  match lookupD s.rules rule_id with
  | none => false
  | some rule =>
    s.alert_history.any (fun a =>
      a.rule_id == rule_id &&
      decide (a.created_at > now - rule.cooldown_minutes * 60))

/-- `f"alert_{int(time.time() * 1000)}_{rule.id}"`. -/
def mkAlertId (now : ℚ) (rule_id : String) : String :=
  "alert_" ++ toString ⌊now * 1000⌋ ++ "_" ++ rule_id

/-- The alert message built by `_create_alert`. -/
def mkAlertMessage (rule : AlertRule) (metric_value : ℚ) : String :=
  rule.description ++ " - Current value: " ++ toString metric_value
    ++ ", Threshold: " ++ toString rule.threshold

/-- `AlertManager._create_alert`: build the alert, insert it into the
active map and append it to the bounded (`maxlen=10000`) history. -/
def createAlert (rule : AlertRule) (metric_value : ℚ) (now : ℚ)
    (s : ManagerState) : Alert × ManagerState :=
  let alert : Alert :=
    { id := mkAlertId now rule.id
      rule_id := rule.id
      rule_name := rule.name
      message := mkAlertMessage rule metric_value
      severity := rule.severity
      status := AlertStatus.active
      metric_value := metric_value
      threshold := rule.threshold
      created_at := now
      updated_at := now
      context := AlertContext.ruleCtx rule.metric rule.condition rule.tags }
  let s := { s with
    active_alerts := dictInsert s.active_alerts alert.id alert
    alert_history := dequePush 10000 s.alert_history alert }
  (alert, s)

/-- `AlertManager._matches_suppression_rule`. -/
def matchesSuppressionRule (alert : Alert) (rule : SuppressionRule) :
    Bool :=
  if rule.severity != [] && !(rule.severity.contains alert.severity.value)
  then false
  else
    rule.tags.all (fun kv =>
      lookupD alert.context.tagsOf kv.1 == some kv.2)

/-- `AlertManager._should_suppress_alert`: clean this rule's alert-count
deque (trailing hour), record the new alert, then suppress on the
frequency cap (> 10 per hour) or on a matching configured suppression
rule.  Returns the decision together with the updated store (the alert
object's status mutation included). -/
def shouldSuppressAlert (alert : Alert) (now : ℚ) (s : ManagerState) :
    Bool × ManagerState :=
  let cutoff := now - 3600
  let alert_times := (lookupD s.alert_counts alert.rule_id).getD []
  let cleaned := alert_times.dropWhile (fun t => decide (t < cutoff))
  let appended := dequePush 100 cleaned now
  let counts := dictInsert s.alert_counts alert.rule_id appended
  let s := { s with alert_counts := counts }
  if appended.length > 10 then
    (true, updateAlertInState alert.id
      (fun a => { a with status := AlertStatus.suppressed }) s)
  else if s.suppression_rules.any (fun r => matchesSuppressionRule alert r)
  then
    (true, updateAlertInState alert.id
      (fun a => { a with status := AlertStatus.suppressed }) s)
  else (false, s)

/-- `AlertManager._resolve_alert`: stamp `resolved`/`resolved_at`/
`updated_at`, drop the alert from the active map (it stays in
history). -/
def resolveAlert (alert : Alert) (now : ℚ) (s : ManagerState) :
    ManagerState :=
  let s := updateAlertInState alert.id
    (fun a => { a with
      status := AlertStatus.resolved
      resolved_at := some now
      updated_at := now }) s
  { s with active_alerts :=
      s.active_alerts.filter (fun p => !(p.1 == alert.id)) }

/-- `AlertManager.acknowledge_alert`. -/
def acknowledgeAlert (alert_id : String) (user_id : String) (now : ℚ)
    (s : ManagerState) : Bool × ManagerState :=
  match lookupD s.active_alerts alert_id with
  | some _ =>
    (true, updateAlertInState alert_id
      (fun a => { a with
        status := AlertStatus.acknowledged
        acknowledged_by := some user_id
        updated_at := now }) s)
  | none => (false, s)

/-- `AlertManager._evaluate_rule`: one evaluation of one rule against a
metrics snapshot at instant `now`.  Returns the new store and the alert
handed to `_dispatch_alert` (none when nothing was dispatched). -/
def evaluateRule (sqrtF : ℚ → ℚ) (rule : AlertRule)
    (metrics : MetricsSummary) (now : ℚ) (s : ManagerState) :
    ManagerState × Option Alert :=
  match getMetricValue rule.metric metrics with
  | none => (s, none)
  | some metric_value =>
    let det := addMetricValue sqrtF rule.metric metric_value now s.det
    let s := { s with det := det }
    let condition_met := checkCondition rule metric_value s.det
    let existing_alert := getActiveAlertForRule rule.id s
    if condition_met then
      match existing_alert with
      | some ex =>
        (updateAlertInState ex.id
          (fun a => { a with metric_value := metric_value
                             updated_at := now }) s, none)
      | none =>
        if isCooldownActive rule.id now s then (s, none)
        else
          let (alert, s) := createAlert rule metric_value now s
          let (sup, s) := shouldSuppressAlert alert now s
          if sup then (s, none) else (s, some alert)
    else
      match existing_alert with
      | some ex =>
        if ex.status == AlertStatus.active then (resolveAlert ex now s, none)
        else (s, none)
      | none => (s, none)

/-- A concrete rule-evaluation alert used by witnesses. -/
def sampleAlert : Alert :=
  { id := "a1", rule_id := "r1", rule_name := "R", message := "m"
    severity := AlertSeverity.high, status := AlertStatus.active
    metric_value := 5, threshold := 3, created_at := 0, updated_at := 0
    context := AlertContext.ruleCtx "met" "gt" [] }

/-- A store holding `sampleAlert` as its only (active) alert. -/
def sampleAckState : ManagerState :=
  { ManagerState.init with
    active_alerts := [("a1", sampleAlert)]
    alert_history := [sampleAlert] }

/-- A concrete rule used by witnesses (gt on gauge `met`). -/
def sampleRule : AlertRule :=
  { id := "r1", name := "R", description := "d", metric := "met"
    condition := "gt", threshold := 3, severity := AlertSeverity.high }

/-- A metrics snapshot whose gauge `met` reads 2 (below threshold). -/
def sampleMetricsLow : MetricsSummary :=
  { counters := [], gauges := [("met", 2)], histograms := [] }

/-- A metrics snapshot whose gauge `met` reads 9 (above threshold). -/
def sampleMetricsHigh : MetricsSummary :=
  { counters := [], gauges := [("met", 9)], histograms := [] }

/-- A store with rule `r1` registered, an old (out-of-cooldown) alert in
history, and nothing active. -/
def sampleCooldownState : ManagerState :=
  { ManagerState.init with
    rules := [("r1", sampleRule)]
    alert_history := [sampleAlert] }

/-- A store with rule `r1` registered and ten recent suppression-count
timestamps recorded for it. -/
def sampleSuppressState : ManagerState :=
  { ManagerState.init with
    rules := [("r1", sampleRule)]
    alert_counts :=
      [("r1", [100, 200, 300, 400, 500, 600, 700, 800, 900, 1000])] }

/-- The alert that one evaluation of `sampleRule` at time 2000 creates
on `sampleCooldownState` (metric 9 above threshold 3). -/
def sampleCreatedAlert : Alert :=
  { id := "alert_2000000_r1", rule_id := "r1", rule_name := "R"
    message := "d - Current value: 9, Threshold: 3"
    severity := AlertSeverity.high, status := AlertStatus.active
    metric_value := 9, threshold := 3, created_at := 2000
    updated_at := 2000, context := AlertContext.ruleCtx "met" "gt" [] }

/-! ## Escalation execution (`alerting.py`, `_execute_escalation`) -/

/-- One escalation-policy step
`{"delay_minutes": d, "channels": [...], "recipients": [...]}`. -/
structure EscalationStep where
  delay_minutes : ℚ
  channels : List String
  recipients : List String
  deriving DecidableEq, Repr

/-- One attempted channel send:
`self.channels[channel_name].send_alert(alert, recipients)` at step
`step` of the policy; `ok` is the boolean result (a raised exception is
caught and behaves like a failure). -/
structure SendEvent where
  step : Nat
  channel : String
  recipients : List String
  ok : Bool
  deriving DecidableEq, Repr

/-- `AlertManager._execute_escalation` from step index `k` onward.
`statusAt c` is the alert's status as observed at the `c`-th status
check (check `2*k` sits before step `k`'s delay, check `2*k+1` after
it); the alert is shared with the concurrently running evaluation loop,
so consecutive observations may differ.  `registry` is the key set of
`self.channels`; `sendOk` gives each send's outcome. -/
def executeEscalationFrom (registry : List String)
    (statusAt : Nat → AlertStatus)
    (sendOk : Nat → String → List String → Bool) :
    List EscalationStep → Nat → List SendEvent
  | [], _ => []
  | step :: rest, k =>
    if statusAt (2 * k) != AlertStatus.active then []
    else if statusAt (2 * k + 1) != AlertStatus.active then []
    else
      (step.channels.filter (fun c => registry.contains c)).map
        (fun c => { step := k, channel := c, recipients := step.recipients
                    ok := sendOk k c step.recipients })
        ++ executeEscalationFrom registry statusAt sendOk rest (k + 1)

/-- `AlertManager._execute_escalation` over a whole policy. -/
def executeEscalation (registry : List String)
    (statusAt : Nat → AlertStatus)
    (sendOk : Nat → String → List String → Bool)
    (steps : List EscalationStep) : List SendEvent :=
  executeEscalationFrom registry statusAt sendOk steps 0

/-- A status trace that is `active` for the first three checks and
`resolved` from the fourth on (the alert resolves during step 1's
delay). -/
def witnessStatusTrace : Nat → AlertStatus :=
  fun c => if c ≤ 2 then AlertStatus.active else AlertStatus.resolved

/-- A send oracle on which every send fails. -/
def witnessSendOk : Nat → String → List String → Bool :=
  fun _ _ _ => false

/-- A two-step escalation policy used by the C5 witness. -/
def witnessSteps : List EscalationStep :=
  [ { delay_minutes := 0, channels := ["email"], recipients := ["oncall"] }
  , { delay_minutes := 15, channels := ["email"], recipients := ["mgr"] } ]

/-! ## Synthetic monitoring (`synthetic_monitoring.py`) -/

/-- `class CheckStatus(Enum)`. -/
inductive CheckStatus
  | success
  | failure
  | timeout
  | error
  deriving DecidableEq, Repr

/-- The fields of `SyntheticCheck` consulted by
`_create_failure_alert`. -/
structure SyntheticCheck where
  id : String
  name : String
  tags : List (String × String) := []
  deriving DecidableEq, Repr

/-- One journey step dict: `name`, `method`, `url`, optional `body`,
`expected_status` (default 200 applied at `.get` time) and optional
`expected_content`. -/
structure JourneyStep where
  name : String
  method : String := "GET"
  url : String
  expected_status : Nat := 200
  expected_content : Option String := none
  deriving DecidableEq, Repr

/-- `@dataclass UserJourney` (fields the execution logic reads). -/
structure UserJourney where
  id : String
  name : String
  steps : List JourneyStep
  timeout_seconds : ℚ := 120
  critical : Bool := false
  deriving DecidableEq, Repr

/-- The per-step entry stored into `session_data[f"step_{i+1}"]`. -/
structure StepDetail where
  name : String
  status : Nat
  response_time_ms : ℚ
  success : Bool
  deriving DecidableEq, Repr

/-- `@dataclass CheckResult` (journey-relevant fields; `details` keeps
the `step_{i+1}` keys as the numeric `i+1`). -/
structure CheckResultS where
  check_id : String
  check_name : String
  status : CheckStatus
  response_time_ms : ℚ
  response_status : Option Nat
  response_size : Nat
  error_message : Option String
  details : List (Nat × StepDetail)
  deriving DecidableEq, Repr

/-- A concrete failed synthetic check result used by the C1 analysis. -/
def sampleFailResult : CheckResultS :=
  { check_id := "c1", check_name := "C", status := CheckStatus.failure
    response_time_ms := 10, response_status := some 500
    response_size := 0, error_message := some "err", details := [] }

/-- The environment's answer to the `i`-th HTTP request of a journey:
response status, body text, and elapsed milliseconds. -/
structure StepResponse where
  status : Nat
  content : String
  elapsed_ms : ℚ
  deriving Repr

/-- The `session_data` entry built for one executed step: its name,
response status, timing, and `success = (status == expected_status)`. -/
def mkDetail (step : JourneyStep) (r : StepResponse) : StepDetail :=
  { name := step.name, status := r.status
    response_time_ms := r.elapsed_ms
    success := r.status == step.expected_status }

/-- Whether a step passes both its checks (status match and, when
configured, expected content present) — the condition under which the
journey loop continues past it. -/
def stepPasses (step : JourneyStep) (r : StepResponse) : Bool :=
  r.status == step.expected_status &&
    (match step.expected_content with
     | some expected => (expected.toList.IsInfix r.content.toList : Bool)
     | none => true)

/-- The `session_data` entries recorded for a run of consecutive
passing steps starting at index `i`. -/
def stepDetails (resp : Nat → StepResponse) :
    List JourneyStep → Nat → List (Nat × StepDetail)
  | [], _ => []
  | st :: rest, i => (i + 1, mkDetail st (resp i)) :: stepDetails resp rest (i + 1)

/-- A one-step journey expecting content `TOKEN` (C9 analysis). -/
def cexJourney : UserJourney :=
  { id := "j1", name := "J"
    steps := [ { name := "s1", url := "/a", expected_status := 200
                 expected_content := some "TOKEN" } ] }

/-- A response whose status matches but whose body lacks the expected
content. -/
def cexResp : Nat → StepResponse :=
  fun _ => { status := 200, content := "nope", elapsed_ms := 1 }

/-- First step of the three-step witness journey. -/
def wStep1 : JourneyStep := { name := "s1", url := "/a" }

/-- Second step of the three-step witness journey (will fail). -/
def wStep2 : JourneyStep := { name := "s2", url := "/b" }

/-- Third step of the three-step witness journey (never reached). -/
def wStep3 : JourneyStep := { name := "s3", url := "/c" }

/-- A three-step journey whose second step returns an unexpected
status. -/
def wJourney : UserJourney :=
  { id := "j2", name := "J2", steps := [wStep1, wStep2, wStep3] }

/-- Responses for `wJourney`: request 1 gets a 500, the others 200. -/
def wResp : Nat → StepResponse :=
  fun i => if i == 1 then { status := 500, content := "", elapsed_ms := 1 }
    else { status := 200, content := "ok", elapsed_ms := 1 }

/-- Error text for a status-mismatch step failure. -/
def statusFailMsg (step : JourneyStep) (got : Nat) : String :=
  "Step " ++ step.name ++ " failed: expected "
    ++ toString step.expected_status ++ ", got " ++ toString got

/-- Error text for a missing-expected-content step failure. -/
def contentFailMsg (step : JourneyStep) : String :=
  "Step " ++ step.name ++ " failed: expected content not found"

/-- The loop body of `SyntheticMonitor._execute_journey`: walk the steps
in order, recording each executed step into `session_data` and
short-circuiting on the first failing step.  `resp i` is the response
observed for the `i`-th executed request; `total_ms` stands for the
overall wall-clock measurement. -/
def runJourneySteps (journey : UserJourney) (resp : Nat → StepResponse)
    (total_ms : ℚ) :
    List JourneyStep → Nat → List (Nat × StepDetail) → CheckResultS
  | [], _, acc =>
    { check_id := journey.id, check_name := journey.name
      status := CheckStatus.success, response_time_ms := total_ms
      response_status := some 200, response_size := 0
      error_message := none, details := acc }
  | step :: rest, i, acc =>
    let r := resp i
    let acc := acc ++ [(i + 1, mkDetail step r)]
    if r.status != step.expected_status then
      { check_id := journey.id, check_name := journey.name
        status := CheckStatus.failure, response_time_ms := total_ms
        response_status := some r.status
        response_size := r.content.length
        error_message := some (statusFailMsg step r.status)
        details := acc }
    else
      match step.expected_content with
      | some expected =>
        if !(expected.toList.IsInfix r.content.toList : Bool) then
          { check_id := journey.id, check_name := journey.name
            status := CheckStatus.failure, response_time_ms := total_ms
            response_status := some r.status
            response_size := r.content.length
            error_message := some (contentFailMsg step)
            details := acc }
        else runJourneySteps journey resp total_ms rest (i + 1) acc
      | none => runJourneySteps journey resp total_ms rest (i + 1) acc

/-- `SyntheticMonitor._execute_journey` (the non-exceptional path). -/
def executeJourney (journey : UserJourney) (resp : Nat → StepResponse)
    (total_ms : ℚ) : CheckResultS :=
  runJourneySteps journey resp total_ms journey.steps 0 []

/-- Severity chosen by `_create_failure_alert`. -/
def failureSeverity (checks : List (String × SyntheticCheck))
    (journeys : List (String × UserJourney)) (result : CheckResultS) :
    AlertSeverity :=
  match lookupD journeys result.check_id with
  | some journey =>
    if journey.critical then AlertSeverity.critical
    else
      match lookupD checks result.check_id with
      | some check =>
        if lookupD check.tags "critical" == some "true" then
          AlertSeverity.critical
        else if result.status == CheckStatus.timeout then
          AlertSeverity.high
        else AlertSeverity.medium
      | none =>
        if result.status == CheckStatus.timeout then AlertSeverity.high
        else AlertSeverity.medium
  | none =>
    match lookupD checks result.check_id with
    | some check =>
      if lookupD check.tags "critical" == some "true" then
        AlertSeverity.critical
      else if result.status == CheckStatus.timeout then AlertSeverity.high
      else AlertSeverity.medium
    | none =>
      if result.status == CheckStatus.timeout then AlertSeverity.high
      else AlertSeverity.medium

/-- `SyntheticMonitor._create_failure_alert`: build an `active` alert
for the failed check and insert it straight into the alert manager's
active map and history — with no check for an existing active alert for
the same rule id and no cooldown or suppression pass. -/
def createFailureAlert (checks : List (String × SyntheticCheck))
    (journeys : List (String × UserJourney)) (result : CheckResultS)
    (now : ℚ) (s : ManagerState) : ManagerState :=
  let severity := failureSeverity checks journeys result
  let alert_id :=
    "synthetic_alert_" ++ toString ⌊now * 1000⌋ ++ "_" ++ result.check_id
  let alert : Alert :=
    { id := alert_id
      rule_id := "synthetic_" ++ result.check_id
      rule_name := "Synthetic Check Failure: " ++ result.check_name
      message := "Synthetic check " ++ result.check_name ++ " failed: "
        ++ (result.error_message.getD "None")
      severity := severity
      status := AlertStatus.active
      metric_value := 0
      threshold := 1
      created_at := now
      updated_at := now
      context := AlertContext.syntheticCtx result.check_id
        result.response_time_ms result.response_status
        result.error_message }
  { s with
    active_alerts := dictInsert s.active_alerts alert_id alert
    alert_history := dequePush 10000 s.alert_history alert }

/-- Number of `active`-status alerts for a rule id in the active map. -/
def countActiveForRule (s : ManagerState) (rule_id : String) : Nat :=
  (s.active_alerts.filter (fun p =>
    p.2.rule_id == rule_id && p.2.status == AlertStatus.active)).length

/-! ## Log-pattern normalization (`log_aggregation.py`,
`LogAggregator._create_pattern_signature`)

Each regex of the fixed pattern list is translated into a matcher
`Option Char → List Char → Option Nat` that, given the character
preceding the scan position (for `\b`) and the remaining text, returns
the length of the match attempted at that position.  `applySub` then
reproduces `re.sub`: scan left to right, replace each non-overlapping
match, and resume after it (word boundaries are judged on the original
text).  All eight patterns are compiled with `re.IGNORECASE`, which
matters only for literal letters and letter classes. -/

/-- `\d` (ASCII range; the messages handled here are ASCII). -/
def isDigitC (c : Char) : Bool := '0' ≤ c && c ≤ '9'

/-- ASCII letter. -/
def isLetterC (c : Char) : Bool :=
  ('a' ≤ c && c ≤ 'z') || ('A' ≤ c && c ≤ 'Z')

/-- `\w` = `[a-zA-Z0-9_]`. -/
def isWordC (c : Char) : Bool := isLetterC c || isDigitC c || c == '_'

/-- `[0-9a-fA-F]`. -/
def isHexC (c : Char) : Bool :=
  isDigitC c || ('a' ≤ c && c ≤ 'f') || ('A' ≤ c && c ≤ 'F')

/-- The email local-part class `[a-zA-Z0-9._%+-]`. -/
def isLocalC (c : Char) : Bool :=
  isLetterC c || isDigitC c || c == '.' || c == '_' || c == '%'
    || c == '+' || c == '-'

/-- The email domain class `[a-zA-Z0-9.-]`. -/
def isDomainC (c : Char) : Bool :=
  isLetterC c || isDigitC c || c == '.' || c == '-'

/-- Word-ness of the character before the scan position (string start
counts as non-word). -/
def prevWord : Option Char → Bool
  | none => false
  | some c => isWordC c

/-- `\b` between the previous character and a first matched character
`c`: the two sides must differ in word-ness. -/
def atBoundary (prev : Option Char) (c : Char) : Bool :=
  prevWord prev != isWordC c

/-- `\b` after a match: the next character (if any) must not be a word
character, the matched text having ended in a word character. -/
def boundaryAfter : List Char → Bool
  | [] => true
  | c :: _ => !isWordC c

/-- Consume exactly `k` characters satisfying `p`; return the rest. -/
def matchCount (p : Char → Bool) : Nat → List Char → Option (List Char)
  | 0, cs => some cs
  | _ + 1, [] => none
  | k + 1, c :: cs => if p c then matchCount p k cs else none

/-- Consume one literal character, case-insensitively
(`re.IGNORECASE`). -/
def matchLit (lit : Char) : List Char → Option (List Char)
  | [] => none
  | c :: cs => if c.toLower == lit.toLower then some cs else none

/-- Consume a whole case-insensitive literal string. -/
def matchLits : List Char → List Char → Option (List Char)
  | [], cs => some cs
  | l :: ls, cs => (matchLit l cs).bind (matchLits ls)

/-- Length of the maximal prefix satisfying `p` (a greedy `X+`/`X*`
whose class excludes every character that may legally follow it). -/
def runLength (p : Char → Bool) : List Char → Nat
  | [] => 0
  | c :: cs => if p c then runLength p cs + 1 else 0

/-- `r'\d{4}-\d{2}-\d{2}T\d{2}:\d{2}:\d{2}'` (ISO timestamps).  The
pattern has no `\b`, and every quantifier is exact, so matching is a
straight-line walk. -/
def tryIsoTs (_prev : Option Char) (cs : List Char) : Option Nat :=
  ((matchCount isDigitC 4 cs).bind (matchLit '-')
    |>.bind (matchCount isDigitC 2) |>.bind (matchLit '-')
    |>.bind (matchCount isDigitC 2) |>.bind (matchLit 'T')
    |>.bind (matchCount isDigitC 2) |>.bind (matchLit ':')
    |>.bind (matchCount isDigitC 2) |>.bind (matchLit ':')
    |>.bind (matchCount isDigitC 2)).map
    (fun rest => cs.length - rest.length)

/-- `r'\d{4}-\d{2}-\d{2} \d{2}:\d{2}:\d{2}'` (standard timestamps). -/
def tryStdTs (_prev : Option Char) (cs : List Char) : Option Nat :=
  ((matchCount isDigitC 4 cs).bind (matchLit '-')
    |>.bind (matchCount isDigitC 2) |>.bind (matchLit '-')
    |>.bind (matchCount isDigitC 2) |>.bind (matchLit ' ')
    |>.bind (matchCount isDigitC 2) |>.bind (matchLit ':')
    |>.bind (matchCount isDigitC 2) |>.bind (matchLit ':')
    |>.bind (matchCount isDigitC 2)).map
    (fun rest => cs.length - rest.length)

/-- `r'\b\d+\.\d+\.\d+\.\d+\b'` (IP addresses).  Each `\d+` is greedy
and `.` is not a digit, so the greedy run is the only candidate; the
final `\b` fails exactly when the run is followed by a word character
(shorter runs would be followed by a digit). -/
def tryIp (prev : Option Char) (cs : List Char) : Option Nat :=
  match cs with
  | [] => none
  | c :: _ =>
    if !(isDigitC c && atBoundary prev c) then none
    else
      let n1 := runLength isDigitC cs
      match matchLit '.' (cs.drop n1) with
      | none => none
      | some r1 =>
        if r1.length = 0 || !isDigitC (r1.headD ' ') then none
        else
          let n2 := runLength isDigitC r1
          match matchLit '.' (r1.drop n2) with
          | none => none
          | some r2 =>
            if r2.length = 0 || !isDigitC (r2.headD ' ') then none
            else
              let n3 := runLength isDigitC r2
              match matchLit '.' (r2.drop n3) with
              | none => none
              | some r3 =>
                if r3.length = 0 || !isDigitC (r3.headD ' ') then none
                else
                  let n4 := runLength isDigitC r3
                  if boundaryAfter (r3.drop n4) then
                    some (cs.length - (r3.length - n4))
                  else none

/-- `r'\b[0-9a-fA-F]{8}-[0-9a-fA-F]{4}-[0-9a-fA-F]{4}-[0-9a-fA-F]{4}-[0-9a-fA-F]{12}\b'`
(UUIDs): exact counts throughout. -/
def tryUuid (prev : Option Char) (cs : List Char) : Option Nat :=
  match cs with
  | [] => none
  | c :: _ =>
    if !(isHexC c && atBoundary prev c) then none
    else
      match ((matchCount isHexC 8 cs).bind (matchLit '-')
        |>.bind (matchCount isHexC 4) |>.bind (matchLit '-')
        |>.bind (matchCount isHexC 4) |>.bind (matchLit '-')
        |>.bind (matchCount isHexC 4) |>.bind (matchLit '-')
        |>.bind (matchCount isHexC 12)) with
      | none => none
      | some rest =>
        if boundaryAfter rest then some (cs.length - rest.length) else none

/-- `r'\b\d+\b'` (numbers): a maximal digit run delimited by word
boundaries on both sides. -/
def tryNumber (prev : Option Char) (cs : List Char) : Option Nat :=
  match cs with
  | [] => none
  | c :: _ =>
    if !(isDigitC c && atBoundary prev c) then none
    else
      let n := runLength isDigitC cs
      if boundaryAfter (cs.drop n) then some n else none

/-- The domain half of the email pattern:
`[a-zA-Z0-9.-]+\.[a-zA-Z]{2,}\b` applied to the maximal domain-class
run `dom` (whatever follows `dom` is outside the class).  Python's
backtracking prefers the longest first chunk, so try the split point
`k` (the position of the literal dot) from the right; a success needs
at least two letters after the dot and a non-word character (of the
original text) after them.  Returns the total number of characters
consumed from `dom`. -/
def emailDomainSplit (dom : List Char) (afterDom : List Char) :
    Nat → Option Nat
  | 0 => none
  | k + 1 =>
    if dom.getD (k + 1) ' ' == '.' then
      let m := runLength isLetterC (dom.drop (k + 2))
      let «after» := if k + 2 + m < dom.length
        then dom.drop (k + 2 + m) else afterDom
      if m ≥ 2 && boundaryAfter «after» then some (k + 2 + m)
      else emailDomainSplit dom afterDom k
    else emailDomainSplit dom afterDom k

/-- `r'\b[a-zA-Z0-9._%+-]+@[a-zA-Z0-9.-]+\.[a-zA-Z]{2,}\b'` (email
addresses).  The local part is the maximal local-class run (the class
excludes `@`, so no shorter run can be followed by `@`). -/
def tryEmail (prev : Option Char) (cs : List Char) : Option Nat :=
  match cs with
  | [] => none
  | c :: _ =>
    if !(isLocalC c && atBoundary prev c) then none
    else
      let nLocal := runLength isLocalC cs
      match matchLit '@' (cs.drop nLocal) with
      | none => none
      | some afterAt =>
        let nDom := runLength isDomainC afterAt
        if nDom = 0 then none
        else
          match emailDomainSplit (afterAt.take nDom) (afterAt.drop nDom)
            (nDom - 1) with
          | none => none
          | some consumed => some (nLocal + 1 + consumed)

/-- `r'/api/[^/]+/\d+'` (API paths with ids): `[^/]+` cannot cross a
slash and `\d+` is greedy with no trailing constraint. -/
def tryApiPath (_prev : Option Char) (cs : List Char) : Option Nat :=
  match matchLits "/api/".data cs with
  | none => none
  | some rest =>
    let n := runLength (fun c => c != '/') rest
    if n = 0 then none
    else
      match matchLit '/' (rest.drop n) with
      | none => none
      | some rest2 =>
        let d := runLength isDigitC rest2
        if d = 0 then none else some (5 + n + 1 + d)

/-- `r'user_id=\w+'` (user ids). -/
def tryUserId (_prev : Option Char) (cs : List Char) : Option Nat :=
  match matchLits "user_id=".data cs with
  | none => none
  | some rest =>
    let n := runLength isWordC rest
    if n = 0 then none else some (8 + n)

/-- The character preceding the remainder after skipping a block:
the block's last character, or the incoming context when empty. -/
def lastOr : Option Char → List Char → Option Char
  | prev, [] => prev
  | _, c :: cs => lastOr (some c) cs

/-- `re.sub(pattern, repl, text)`: left-to-right scan with
non-overlapping matches, resuming after each replaced span; the `\b`
context is the last character of the original matched span.  Structured
over fuel (one unit per consumed source character). -/
def applySubAux (try1 : Option Char → List Char → Option Nat)
    (repl : List Char) : Nat → Option Char → List Char → List Char
  | 0, _, cs => cs
  | _ + 1, _, [] => []
  | fuel + 1, prev, c :: cs =>
    match try1 prev (c :: cs) with
    | some (n + 1) =>
      repl ++ applySubAux try1 repl fuel ((c :: cs).get? n)
        (List.drop (n + 1) (c :: cs))
    | _ => c :: applySubAux try1 repl fuel (some c) cs

/-- One full `re.sub` pass. -/
def applySub (try1 : Option Char → List Char → Option Nat)
    (repl : List Char) (cs : List Char) : List Char :=
  applySubAux try1 repl cs.length none cs

/-- The fixed, ordered pattern list of `_create_pattern_signature`. -/
def normalizePasses :
    List ((Option Char → List Char → Option Nat) × List Char) :=
  [ (tryIsoTs, "<TIMESTAMP>".data)
  , (tryStdTs, "<TIMESTAMP>".data)
  , (tryIp, "<IP_ADDRESS>".data)
  , (tryUuid, "<UUID>".data)
  , (tryNumber, "<NUMBER>".data)
  , (tryEmail, "<EMAIL>".data)
  , (tryApiPath, "/api/<RESOURCE>/<ID>".data)
  , (tryUserId, "user_id=<USER_ID>".data) ]

/-- The normalization loop of `_create_pattern_signature`: apply every
pass in order. -/
def normalizeMessage (message : String) : String :=
  String.mk (normalizePasses.foldl (fun cs p => applySub p.1 p.2 cs)
    message.data)

/-- `_create_pattern_signature`: hash of the normalized message.  The
`hashF` parameter stands for `hashlib.md5(...).hexdigest()[:16]`. -/
def createPatternSignature (hashF : String → String) (message : String) :
    String :=
  hashF (normalizeMessage message)

/-! ## Helper lemmas -/

theorem foldl_min_le_init (a : ℚ) (xs : List ℚ) : xs.foldl min a ≤ a := by
  induction xs generalizing a with
  | nil => simp
  | cons x xs ih =>
    simpa using le_trans (ih (min a x)) (min_le_left a x)

theorem foldl_min_le_mem {y : ℚ} (a : ℚ) {xs : List ℚ} (hy : y ∈ xs) :
    xs.foldl min a ≤ y := by
  induction xs generalizing a with
  | nil => cases hy
  | cons x xs ih =>
    rcases List.mem_cons.mp hy with rfl | hy
    · exact le_trans (foldl_min_le_init (min a y) xs) (min_le_right a y)
    · exact ih (min a x) hy

theorem minQ_le {l : List ℚ} {y : ℚ} (hy : y ∈ l) : minQ l ≤ y := by
  cases l with
  | nil => cases hy
  | cons x xs =>
    rcases List.mem_cons.mp hy with rfl | hy
    · exact foldl_min_le_init y xs
    · exact foldl_min_le_mem x hy

theorem init_le_foldl_max (a : ℚ) (xs : List ℚ) : a ≤ xs.foldl max a := by
  induction xs generalizing a with
  | nil => simp
  | cons x xs ih =>
    simpa using le_trans (le_max_left a x) (ih (max a x))

theorem mem_le_foldl_max {y : ℚ} (a : ℚ) {xs : List ℚ} (hy : y ∈ xs) :
    y ≤ xs.foldl max a := by
  induction xs generalizing a with
  | nil => cases hy
  | cons x xs ih =>
    rcases List.mem_cons.mp hy with rfl | hy
    · exact le_trans (le_max_right a y) (init_le_foldl_max (max a y) xs)
    · exact ih (max a x) hy

theorem le_maxQ {l : List ℚ} {y : ℚ} (hy : y ∈ l) : y ≤ maxQ l := by
  cases l with
  | nil => cases hy
  | cons x xs =>
    rcases List.mem_cons.mp hy with rfl | hy
    · exact init_le_foldl_max y xs
    · exact mem_le_foldl_max x hy

theorem percentileOf_mem {values : List ℚ} (h : values ≠ [])
    (p : ℚ) : percentileOf values p ∈ values := by
  unfold percentileOf
  set sorted := values.insertionSort (· ≤ ·) with hs
  have hlen : sorted.length = values.length :=
    (List.perm_insertionSort (· ≤ ·) values).length_eq
  have hpos : 0 < sorted.length := by
    rw [hlen]
    exact List.length_pos.mpr h
  have hidx : min (⌊(sorted.length : ℚ) * p⌋).toNat (sorted.length - 1)
      < sorted.length := by
    refine lt_of_le_of_lt (min_le_right _ _) ?_
    omega
  rw [List.getD_eq_getElem _ _ hidx]
  exact (List.perm_insertionSort (· ≤ ·) values).mem_iff.mp
    (List.getElem_mem _)

theorem percentileOf_mono {values : List ℚ} (h : values ≠ [])
    {p q : ℚ} (hpq : p ≤ q) :
    percentileOf values p ≤ percentileOf values q := by
  unfold percentileOf
  set sorted := values.insertionSort (· ≤ ·) with hs
  have hsorted : sorted.Sorted (· ≤ ·) :=
    List.sorted_insertionSort (· ≤ ·) values
  have hlen : sorted.length = values.length :=
    (List.perm_insertionSort (· ≤ ·) values).length_eq
  have hpos : 0 < sorted.length := by
    rw [hlen]
    exact List.length_pos.mpr h
  have hfloor : (⌊(sorted.length : ℚ) * p⌋).toNat
      ≤ (⌊(sorted.length : ℚ) * q⌋).toNat := by
    refine Int.toNat_le_toNat (Int.floor_le_floor ?_)
    exact mul_le_mul_of_nonneg_left hpq (by positivity)
  have hi : min (⌊(sorted.length : ℚ) * p⌋).toNat (sorted.length - 1)
      < sorted.length := lt_of_le_of_lt (min_le_right _ _) (by omega)
  have hj : min (⌊(sorted.length : ℚ) * q⌋).toNat (sorted.length - 1)
      < sorted.length := lt_of_le_of_lt (min_le_right _ _) (by omega)
  rw [List.getD_eq_getElem _ _ hi, List.getD_eq_getElem _ _ hj]
  have hij : min (⌊(sorted.length : ℚ) * p⌋).toNat (sorted.length - 1)
      ≤ min (⌊(sorted.length : ℚ) * q⌋).toNat (sorted.length - 1) := by
    omega
  exact List.Sorted.rel_get_of_le hsorted (a := ⟨_, hi⟩) (b := ⟨_, hj⟩) hij

theorem lookupD_cons {α : Type} (p : String × α) (l : List (String × α))
    (k : String) :
    lookupD (p :: l) k = if p.1 == k then some p.2 else lookupD l k := by
  by_cases h : p.1 == k <;> simp [lookupD, List.find?_cons, h]

theorem lookupD_dictInsert_self {α : Type} (l : List (String × α))
    (k : String) (v : α) : lookupD (dictInsert l k v) k = some v := by
  induction l with
  | nil => simp [dictInsert, lookupD]
  | cons p l ih =>
    by_cases h : p.1 == k
    · simp [dictInsert, h, lookupD]
    · simp [dictInsert, h, lookupD_cons, ih]

theorem lastWindow_map {α β : Type} (cap : Nat) (f : α → β)
    (l : List α) : (lastWindow cap l).map f = lastWindow cap (l.map f) := by
  simp [lastWindow]

theorem dequePush_lastWindow {α : Type} {cap : Nat} (hcap : 0 < cap)
    (l : List α) (x : α) :
    dequePush cap (lastWindow cap l) x = lastWindow cap (l ++ [x]) := by
  by_cases h : l.length < cap
  · have h0 : l.length - cap = 0 := by omega
    have h1 : l.length + 1 - cap = 0 := by omega
    simp [dequePush, lastWindow, h0, h1, h]
  · have hlen : (l.drop (l.length - cap)).length = cap := by
      rw [List.length_drop]
      omega
    have heq : l.length + 1 - cap = (l.length - cap) + 1 := by omega
    rw [lastWindow, lastWindow, List.length_append, List.length_singleton,
      dequePush, hlen, if_neg (lt_irrefl cap), List.tail_drop, heq,
      List.drop_append_of_le_length (by omega)]

theorem detOf_spec (sqrtF : ℚ → ℚ) (name : String) :
    ∀ samples : List (ℚ × ℚ),
    (detOf sqrtF name samples).window_size = 100 ∧
    (detOf sqrtF name samples).historyOf name
      = (lastWindow 100 samples).map (fun p => HistEntry.mk p.1 p.2) ∧
    lookupD (detOf sqrtF name samples).baselines name
      = (if samples.length < 3 then none
        else some (baselineOf sqrtF (windowValues samples)
          ((samples.getLastD (0, 0)).2))) := by
  intro samples
  induction samples using List.reverseRecOn with
  | nil =>
    refine ⟨rfl, by simp [detOf, DetectorState.init, DetectorState.historyOf,
      lookupD, lastWindow], by simp [detOf, DetectorState.init, lookupD]⟩
  | append_singleton samples p ih =>
    obtain ⟨ihw, ihh, ihb⟩ := ih
    have hstep : detOf sqrtF name (samples ++ [p])
        = addMetricValue sqrtF name p.1 p.2 (detOf sqrtF name samples) := by
      simp [detOf, List.foldl_append]
    have hhist : dequePush 100 ((detOf sqrtF name samples).historyOf name)
          (HistEntry.mk p.1 p.2)
        = (lastWindow 100 (samples ++ [p])).map
            (fun q => HistEntry.mk q.1 q.2) := by
      rw [ihh, lastWindow_map, dequePush_lastWindow (by norm_num),
        lastWindow_map]
      simp
    set d := detOf sqrtF name samples with hd
    set win := (lastWindow 100 (samples ++ [p])).map
      (fun q => HistEntry.mk q.1 q.2) with hwin
    set h2 := dequePush d.window_size (d.historyOf name) (HistEntry.mk p.1 p.2) with hh2
    set d1 : DetectorState := { d with metric_histories := dictInsert d.metric_histories name h2 } with hd1
    have hstep2 : addMetricValue sqrtF name p.1 p.2 d
        = updateBaseline sqrtF name p.2 d1 := rfl
    have hd1hist : d1.historyOf name = win := by
      rw [hd1]
      show (lookupD (dictInsert d.metric_histories name _) name).getD [] = win
      rw [lookupD_dictInsert_self, Option.getD_some, hh2, ihw, hhist]
    have hub : updateBaseline sqrtF name p.2 d1
        = if (d1.historyOf name).length < 3 then d1
          else { d1 with baselines := dictInsert d1.baselines name (baselineOf sqrtF ((d1.historyOf name).map (fun e => e.value)) p.2) } := rfl
    have hwlen : win.length = (samples.length + 1)
        - ((samples.length + 1) - 100) := by
      simp [hwin, lastWindow]
    have hvals : win.map (fun e => e.value)
        = windowValues (samples ++ [p]) := by
      simp [hwin, windowValues]
    rw [hstep, hstep2, hub, hd1hist]
    by_cases hlt : win.length < 3
    · have hsl : (samples ++ [p]).length < 3 := by
        simp only [List.length_append, List.length_singleton]
        omega
      rw [if_pos hlt]
      refine ⟨ihw, hd1hist, ?_⟩
      have hbsame : d1.baselines = d.baselines := rfl
      rw [hbsame, ihb, if_pos (by omega), if_pos hsl]
    · have hsl : ¬ (samples ++ [p]).length < 3 := by
        simp only [List.length_append, List.length_singleton]
        omega
      rw [if_neg hlt]
      refine ⟨ihw, hd1hist, ?_⟩
      show lookupD (dictInsert d1.baselines name _) name = _
      rw [lookupD_dictInsert_self, if_neg hsl, hvals]
      simp [List.getLastD_concat]

/-! ## C6: anomaly-detector cold start and z-score -/

/-- C6: `is_anomaly` is false whenever the metric's rolling window has
fewer than 10 samples, for any value; with at least 10 samples fed
through `add_metric_value` it returns true exactly when
`|value - mean| / max(stddev, 0.1)` exceeds the sensitivity, the mean
and stddev being those recomputed over the retained window. -/
theorem isAnomaly_cold_start_and_zscore (name : String) (v sens : ℚ)
    (sqrtF : ℚ → ℚ) (samples : List (ℚ × ℚ)) (d : DetectorState) :
    ((d.historyOf name).length < 10 → isAnomaly name v sens d = false) ∧
    (10 ≤ samples.length →
      isAnomaly name v sens (detOf sqrtF name samples)
        = decide (|v - meanQ (windowValues samples)|
            / max (sqrtF (varQ (windowValues samples))) (1/10) > sens)) := by
  constructor
  · intro h
    unfold isAnomaly
    cases hb : lookupD d.baselines name with
    | none => rfl
    | some b => simp [h]
  · intro h
    obtain ⟨-, hh, hb⟩ := detOf_spec sqrtF name samples
    have hlen : ¬ ((detOf sqrtF name samples).historyOf name).length < 10 := by
      rw [hh]
      simp only [List.length_map, lastWindow, List.length_drop]
      omega
    rw [if_neg (by omega)] at hb
    unfold isAnomaly
    rw [hb]
    simp [hlen, baselineOf]

/-- C6 witness: ten constant samples make the window warm, and the
z-score test fires on an extreme value; the fresh detector is cold. -/
theorem isAnomaly_cold_start_and_zscore_witness :
    (isAnomaly "m" 100 2 (detOf (fun _ => 0) "m"
        [(1, 1), (1, 2), (1, 3), (1, 4), (1, 5), (1, 6), (1, 7), (1, 8),
         (1, 9), (1, 10)])
      = decide ((|(100 : ℚ) - meanQ (windowValues
          [(1, 1), (1, 2), (1, 3), (1, 4), (1, 5), (1, 6), (1, 7), (1, 8),
           (1, 9), (1, 10)])|
          / max ((fun _ => (0 : ℚ)) (varQ (windowValues
          [(1, 1), (1, 2), (1, 3), (1, 4), (1, 5), (1, 6), (1, 7), (1, 8),
           (1, 9), (1, 10)]))) (1/10) > 2))) ∧
    isAnomaly "m" 100 2 DetectorState.init = false := by
  have h := isAnomaly_cold_start_and_zscore "m" 100 2 (fun _ => 0)
    [(1, 1), (1, 2), (1, 3), (1, 4), (1, 5), (1, 6), (1, 7), (1, 8),
     (1, 9), (1, 10)] DetectorState.init
  exact ⟨h.2 (by decide), h.1 (by decide)⟩

/-! ## C7: histogram percentile order/bounds -/

/-- C7: for every non-empty histogram window, the summary satisfies
`p99 ≥ p95`, and both `p95` and `p99` lie within `[min, max]` of the
retained values. -/
theorem histSummary_p95_p99_bounds (values : List ℚ) (h : values ≠ []) :
    (histSummary values).p95 ≤ (histSummary values).p99 ∧
    (histSummary values).min ≤ (histSummary values).p95 ∧
    (histSummary values).p95 ≤ (histSummary values).max ∧
    (histSummary values).min ≤ (histSummary values).p99 ∧
    (histSummary values).p99 ≤ (histSummary values).max := by
  simp only [histSummary, if_pos h]
  refine ⟨percentileOf_mono h (by norm_num), ?_, ?_, ?_, ?_⟩
  · exact minQ_le (percentileOf_mem h _)
  · exact le_maxQ (percentileOf_mem h _)
  · exact minQ_le (percentileOf_mem h _)
  · exact le_maxQ (percentileOf_mem h _)

/-- C7 witness: the property evaluated on the concrete window
`[3, 1, 2]`. -/
theorem histSummary_p95_p99_bounds_witness :
    (histSummary [3, 1, 2]).p95 ≤ (histSummary [3, 1, 2]).p99 ∧
    (histSummary [3, 1, 2]).min ≤ (histSummary [3, 1, 2]).p95 ∧
    (histSummary [3, 1, 2]).p95 ≤ (histSummary [3, 1, 2]).max ∧
    (histSummary [3, 1, 2]).min ≤ (histSummary [3, 1, 2]).p99 ∧
    (histSummary [3, 1, 2]).p99 ≤ (histSummary [3, 1, 2]).max :=
  histSummary_p95_p99_bounds [3, 1, 2] (by decide)

/-! ## C10: acknowledge_alert -/

theorem lookupD_map_update {α : Type} (l : List (String × α))
    (k : String) (f : α → α) :
    lookupD (l.map (fun p => if p.1 == k then (p.1, f p.2) else p)) k
      = (lookupD l k).map f := by
  induction l with
  | nil => simp [lookupD]
  | cons p l ih =>
    by_cases h : p.1 == k
    · simp only [List.map_cons, if_pos h]
      rw [lookupD_cons, lookupD_cons]
      simp [h]
    · simp only [List.map_cons, if_neg h]
      rw [lookupD_cons, lookupD_cons, if_neg h, if_neg h, ih]

theorem lookupD_updateAlertInState (aid : String) (f : Alert → Alert)
    (s : ManagerState) :
    lookupD (updateAlertInState aid f s).active_alerts aid
      = (lookupD s.active_alerts aid).map f :=
  lookupD_map_update s.active_alerts aid f

theorem mem_map_update_of_ne {α : Type} {l : List (String × α)}
    {k : String} {f : α → α} {p : String × α} (hp : p ∈ l)
    (hne : p.1 ≠ k) :
    p ∈ l.map (fun q => if q.1 == k then (q.1, f q.2) else q) := by
  have himg : (fun q : String × α => if q.1 == k then (q.1, f q.2) else q) p
      = p := by
    simp [hne]
  rw [← himg]
  exact List.mem_map_of_mem _ hp

/-- C10: `acknowledge_alert(alert_id, user_id)` returns true iff the id
is in the active map; on success it rewrites exactly that alert to
`acknowledged` with the acknowledger and a refreshed `updated_at`,
keeping it in the active map and leaving every other binding intact; on
a miss the whole store is returned unchanged. -/
theorem acknowledgeAlert_spec (alert_id user_id : String) (now : ℚ)
    (s : ManagerState) :
    ((acknowledgeAlert alert_id user_id now s).1 = true
      ↔ (lookupD s.active_alerts alert_id).isSome) ∧
    (lookupD s.active_alerts alert_id = none →
      acknowledgeAlert alert_id user_id now s = (false, s)) ∧
    (∀ a, lookupD s.active_alerts alert_id = some a →
      lookupD (acknowledgeAlert alert_id user_id now s).2.active_alerts
          alert_id
        = some { a with status := AlertStatus.acknowledged
                        acknowledged_by := some user_id
                        updated_at := now } ∧
      (∀ p ∈ s.active_alerts, p.1 ≠ alert_id →
        p ∈ (acknowledgeAlert alert_id user_id now s).2.active_alerts) ∧
      (acknowledgeAlert alert_id user_id now s).2.rules = s.rules) := by
  refine ⟨?_, ?_, ?_⟩
  · cases hl : lookupD s.active_alerts alert_id <;>
      simp [acknowledgeAlert, hl]
  · intro hl
    simp [acknowledgeAlert, hl]
  · intro a hl
    refine ⟨?_, ?_, ?_⟩
    · simp only [acknowledgeAlert, hl]
      rw [lookupD_updateAlertInState, hl]
      rfl
    · intro p hp hne
      simp only [acknowledgeAlert, hl, updateAlertInState]
      exact @mem_map_update_of_ne Alert s.active_alerts alert_id
        (fun a => { a with status := AlertStatus.acknowledged
                           acknowledged_by := some user_id
                           updated_at := now }) p hp hne
    · simp [acknowledgeAlert, hl, updateAlertInState]

/-- C10 witness: a one-alert store is acknowledged in place. -/
theorem acknowledgeAlert_spec_witness :
    lookupD (acknowledgeAlert "a1" "u" 7 sampleAckState).2.active_alerts
        "a1"
      = some { sampleAlert with
               status := AlertStatus.acknowledged
               acknowledged_by := some "u"
               updated_at := 7 } :=
  ((acknowledgeAlert_spec "a1" "u" 7 sampleAckState).2.2 sampleAlert
    (by decide)).1

/-! ## Branch characterizations of `_evaluate_rule` -/

theorem getActiveAlertForRule_det (rid : String) (x : DetectorState)
    (s : ManagerState) :
    getActiveAlertForRule rid { s with det := x }
      = getActiveAlertForRule rid s := rfl

theorem isCooldownActive_det (rid : String) (now : ℚ) (x : DetectorState)
    (s : ManagerState) :
    isCooldownActive rid now { s with det := x }
      = isCooldownActive rid now s := rfl

theorem getActiveAlertForRule_props {rid : String} {s : ManagerState}
    {ex : Alert} (h : getActiveAlertForRule rid s = some ex) :
    ex.rule_id = rid ∧ ex.status = AlertStatus.active := by
  unfold getActiveAlertForRule at h
  cases hf : s.active_alerts.find?
      (fun p => p.2.rule_id == rid && p.2.status == AlertStatus.active) with
  | none => rw [hf] at h; cases h
  | some p =>
    rw [hf] at h
    have hp := List.find?_some hf
    simp only [Bool.and_eq_true, beq_iff_eq] at hp
    cases h
    exact hp

/-- In the update branch (condition met, active alert present),
`_evaluate_rule` rewrites that alert's `metric_value`/`updated_at` in
place and dispatches nothing. -/
theorem evaluateRule_eq_update (sqrtF : ℚ → ℚ) (rule : AlertRule)
    (metrics : MetricsSummary) (now : ℚ) (s : ManagerState) (v : ℚ)
    (ex : Alert)
    (hv : getMetricValue rule.metric metrics = some v)
    (hcond : checkCondition rule v
      (addMetricValue sqrtF rule.metric v now s.det) = true)
    (hex : getActiveAlertForRule rule.id s = some ex) :
    evaluateRule sqrtF rule metrics now s
      = (updateAlertInState ex.id
          (fun a => { a with metric_value := v, updated_at := now })
          { s with det := addMetricValue sqrtF rule.metric v now s.det },
         none) := by
  unfold evaluateRule
  rw [hv]
  simp only [getActiveAlertForRule_det, hex, hcond, if_true]

/-- In the resolve branch (condition no longer met, active alert
present), `_evaluate_rule` calls `_resolve_alert` and dispatches
nothing. -/
theorem evaluateRule_eq_resolve (sqrtF : ℚ → ℚ) (rule : AlertRule)
    (metrics : MetricsSummary) (now : ℚ) (s : ManagerState) (v : ℚ)
    (ex : Alert)
    (hv : getMetricValue rule.metric metrics = some v)
    (hcond : checkCondition rule v
      (addMetricValue sqrtF rule.metric v now s.det) = false)
    (hex : getActiveAlertForRule rule.id s = some ex) :
    evaluateRule sqrtF rule metrics now s
      = (resolveAlert ex now
          { s with det := addMetricValue sqrtF rule.metric v now s.det },
         none) := by
  unfold evaluateRule
  rw [hv]
  have hst : ex.status = AlertStatus.active :=
    (getActiveAlertForRule_props hex).2
  simp only [getActiveAlertForRule_det, hex, hcond, Bool.false_eq_true,
    if_false, hst, beq_self_eq_true, if_true]

/-- In the cooldown branch (condition met, no active alert, cooldown
active), `_evaluate_rule` creates nothing and dispatches nothing. -/
theorem evaluateRule_eq_cooldown (sqrtF : ℚ → ℚ) (rule : AlertRule)
    (metrics : MetricsSummary) (now : ℚ) (s : ManagerState) (v : ℚ)
    (hv : getMetricValue rule.metric metrics = some v)
    (hcond : checkCondition rule v
      (addMetricValue sqrtF rule.metric v now s.det) = true)
    (hex : getActiveAlertForRule rule.id s = none)
    (hcool : isCooldownActive rule.id now s = true) :
    evaluateRule sqrtF rule metrics now s
      = ({ s with det := addMetricValue sqrtF rule.metric v now s.det },
         none) := by
  unfold evaluateRule
  rw [hv]
  simp only [getActiveAlertForRule_det, hex, hcond, if_true,
    isCooldownActive_det, hcool]

/-- In the create branch (condition met, no active alert, no cooldown),
`_evaluate_rule` creates the alert, runs the suppression check, and
dispatches the alert exactly when it was not suppressed. -/
theorem evaluateRule_eq_create (sqrtF : ℚ → ℚ) (rule : AlertRule)
    (metrics : MetricsSummary) (now : ℚ) (s : ManagerState) (v : ℚ)
    (hv : getMetricValue rule.metric metrics = some v)
    (hcond : checkCondition rule v
      (addMetricValue sqrtF rule.metric v now s.det) = true)
    (hex : getActiveAlertForRule rule.id s = none)
    (hcool : isCooldownActive rule.id now s = false) :
    evaluateRule sqrtF rule metrics now s
      = (let s1 : ManagerState :=
          { s with det := addMetricValue sqrtF rule.metric v now s.det }
         let ac := createAlert rule v now s1
         let sup := shouldSuppressAlert ac.1 now ac.2
         if sup.1 then (sup.2, none) else (sup.2, some ac.1)) := by
  unfold evaluateRule
  rw [hv]
  simp only [getActiveAlertForRule_det, hex, hcond, if_true,
    isCooldownActive_det, hcool, Bool.false_eq_true, if_false]

/-! ## C4: alert resolution -/

theorem lookupD_filter_ne_none {α : Type} (l : List (String × α))
    (k : String) :
    lookupD (l.filter (fun p => !(p.1 == k))) k = none := by
  induction l with
  | nil => simp [lookupD]
  | cons p l ih =>
    by_cases h : p.1 == k
    · simpa [List.filter_cons, h] using ih
    · simpa [List.filter_cons, h, lookupD_cons] using ih

/-- C4: when the condition no longer holds and an active alert exists,
one evaluation resolves it: status `resolved`, `resolved_at` and
`updated_at` stamped `now` (which is no earlier than `created_at`), the
alert removed from the active map but retained in the history, and
nothing dispatched. -/
theorem evaluateRule_resolve_spec (sqrtF : ℚ → ℚ) (rule : AlertRule)
    (metrics : MetricsSummary) (now : ℚ) (s : ManagerState) (v : ℚ)
    (ex : Alert)
    (hv : getMetricValue rule.metric metrics = some v)
    (hcond : checkCondition rule v
      (addMetricValue sqrtF rule.metric v now s.det) = false)
    (hex : getActiveAlertForRule rule.id s = some ex)
    (hmem : ex ∈ s.alert_history)
    (hts : ex.created_at ≤ now) :
    lookupD (evaluateRule sqrtF rule metrics now s).1.active_alerts ex.id
      = none ∧
    { ex with status := AlertStatus.resolved
              resolved_at := some now
              updated_at := now }
      ∈ (evaluateRule sqrtF rule metrics now s).1.alert_history ∧
    ex.created_at ≤ now ∧
    (evaluateRule sqrtF rule metrics now s).2 = none := by
  rw [evaluateRule_eq_resolve sqrtF rule metrics now s v ex hv hcond hex]
  refine ⟨?_, ?_, hts, rfl⟩
  · show lookupD (List.filter _ _) ex.id = none
    exact lookupD_filter_ne_none _ _
  · show _ ∈ List.map
      (fun a => if a.id == ex.id then _ else a) s.alert_history
    have := List.mem_map_of_mem
      (fun a => if a.id == ex.id
        then { a with status := AlertStatus.resolved
                      resolved_at := some now
                      updated_at := now } else a) hmem
    simpa using this

/-- C4 witness: gauge `met` at 2 is no longer above threshold 3, so the
active alert for rule `r1` is resolved at time 5. -/
theorem evaluateRule_resolve_spec_witness :
    lookupD (evaluateRule (fun _ => 0) sampleRule sampleMetricsLow 5
        sampleAckState).1.active_alerts sampleAlert.id = none ∧
    { sampleAlert with status := AlertStatus.resolved
                       resolved_at := some 5
                       updated_at := 5 }
      ∈ (evaluateRule (fun _ => 0) sampleRule sampleMetricsLow 5
          sampleAckState).1.alert_history ∧
    sampleAlert.created_at ≤ 5 ∧
    (evaluateRule (fun _ => 0) sampleRule sampleMetricsLow 5
      sampleAckState).2 = none :=
  evaluateRule_resolve_spec (fun _ => 0) sampleRule sampleMetricsLow 5
    sampleAckState 2 sampleAlert (by decide) (by decide) (by decide)
    (by decide) (by decide)

/-! ## C1: one active alert per rule id -/

theorem length_filter_map_update (l : List (String × Alert))
    (aid rid : String) (f : Alert → Alert)
    (hf : ∀ a : Alert, (f a).rule_id = a.rule_id ∧ (f a).status = a.status) :
    ((l.map (fun p => if p.1 == aid then (p.1, f p.2) else p)).filter
      (fun p => p.2.rule_id == rid
        && p.2.status == AlertStatus.active)).length
      = (l.filter (fun p => p.2.rule_id == rid
          && p.2.status == AlertStatus.active)).length := by
  rw [← List.countP_eq_length_filter, ← List.countP_eq_length_filter,
    List.countP_map]
  refine List.countP_congr (fun q _ => ?_)
  by_cases h : q.1 = aid <;> simp [h, (hf q.2).1, (hf q.2).2]

/-- The synthetic-monitor failure path violates the one-active-alert
invariant: two consecutive failures of the same check each insert a
fresh `active` alert with rule id `synthetic_c1`, so the active map
holds two active alerts for that rule id (C1 counterexample). -/
theorem createFailureAlert_duplicate_active :
    countActiveForRule
      (createFailureAlert [] [] sampleFailResult 1
        (createFailureAlert [] [] sampleFailResult 0 ManagerState.init))
      "synthetic_c1" = 2 := by decide

/-- C1 (amended): within `_evaluate_rule`, a trigger while an active
alert exists updates that alert's `metric_value`/`updated_at` in place:
the active map keeps exactly its keys, the history keeps exactly its
alert ids, every other binding is untouched, nothing is dispatched, and
the number of active alerts of every rule id is unchanged.  (The claim's
store-wide at-most-one-active invariant fails through
`_create_failure_alert`, which inserts duplicates.) -/
theorem evaluateRule_update_in_place (sqrtF : ℚ → ℚ) (rule : AlertRule)
    (metrics : MetricsSummary) (now : ℚ) (s : ManagerState) (v : ℚ)
    (ex : Alert)
    (hv : getMetricValue rule.metric metrics = some v)
    (hcond : checkCondition rule v
      (addMetricValue sqrtF rule.metric v now s.det) = true)
    (hex : getActiveAlertForRule rule.id s = some ex) :
    (evaluateRule sqrtF rule metrics now s).1.active_alerts.map Prod.fst
      = s.active_alerts.map Prod.fst ∧
    (evaluateRule sqrtF rule metrics now s).1.alert_history.map Alert.id
      = s.alert_history.map Alert.id ∧
    lookupD (evaluateRule sqrtF rule metrics now s).1.active_alerts ex.id
      = (lookupD s.active_alerts ex.id).map
          (fun a => { a with metric_value := v, updated_at := now }) ∧
    (∀ p ∈ s.active_alerts, p.1 ≠ ex.id →
      p ∈ (evaluateRule sqrtF rule metrics now s).1.active_alerts) ∧
    (evaluateRule sqrtF rule metrics now s).2 = none ∧
    (∀ rid, countActiveForRule (evaluateRule sqrtF rule metrics now s).1 rid
      = countActiveForRule s rid) := by
  rw [evaluateRule_eq_update sqrtF rule metrics now s v ex hv hcond hex]
  refine ⟨?_, ?_, ?_, ?_, rfl, ?_⟩
  · show (s.active_alerts.map _).map Prod.fst = _
    rw [List.map_map]
    refine List.map_congr_left (fun p _ => ?_)
    by_cases h : p.1 = ex.id <;> simp [h]
  · show (s.alert_history.map _).map Alert.id = _
    rw [List.map_map]
    refine List.map_congr_left (fun a _ => ?_)
    by_cases h : a.id = ex.id <;> simp [h]
  · exact lookupD_updateAlertInState _ _ _
  · intro p hp hne
    exact @mem_map_update_of_ne Alert s.active_alerts ex.id
      (fun a => { a with metric_value := v, updated_at := now }) p hp hne
  · intro rid
    simp only [countActiveForRule, updateAlertInState]
    exact length_filter_map_update s.active_alerts ex.id rid
      (fun a => { a with metric_value := v, updated_at := now })
      (fun a => ⟨rfl, rfl⟩)

/-- C1 witness: gauge `met` at 9 re-triggers rule `r1` while
`sampleAlert` is active; the store is updated in place. -/
theorem evaluateRule_update_in_place_witness :
    (evaluateRule (fun _ => 0) sampleRule sampleMetricsHigh 5
        sampleAckState).1.active_alerts.map Prod.fst
      = sampleAckState.active_alerts.map Prod.fst ∧
    (evaluateRule (fun _ => 0) sampleRule sampleMetricsHigh 5
        sampleAckState).1.alert_history.map Alert.id
      = sampleAckState.alert_history.map Alert.id ∧
    lookupD (evaluateRule (fun _ => 0) sampleRule sampleMetricsHigh 5
        sampleAckState).1.active_alerts sampleAlert.id
      = (lookupD sampleAckState.active_alerts sampleAlert.id).map
          (fun a => { a with metric_value := 9, updated_at := 5 }) ∧
    (∀ p ∈ sampleAckState.active_alerts, p.1 ≠ sampleAlert.id →
      p ∈ (evaluateRule (fun _ => 0) sampleRule sampleMetricsHigh 5
        sampleAckState).1.active_alerts) ∧
    (evaluateRule (fun _ => 0) sampleRule sampleMetricsHigh 5
      sampleAckState).2 = none ∧
    (∀ rid, countActiveForRule (evaluateRule (fun _ => 0) sampleRule
        sampleMetricsHigh 5 sampleAckState).1 rid
      = countActiveForRule sampleAckState rid) :=
  evaluateRule_update_in_place (fun _ => 0) sampleRule sampleMetricsHigh 5
    sampleAckState 9 sampleAlert (by decide) (by decide) (by decide)

/-! ## C3: cooldown separation -/

theorem mem_dequePush {α : Type} {cap : Nat} {l : List α} {x b : α}
    (hb : b ∈ dequePush cap l x) : b ∈ l ∨ b = x := by
  unfold dequePush at hb
  split at hb
  · rcases List.mem_append.mp hb with h | h
    · exact Or.inl h
    · exact Or.inr (List.mem_singleton.mp h)
  · rcases List.mem_append.mp hb with h | h
    · exact Or.inl (List.mem_of_mem_tail h)
    · exact Or.inr (List.mem_singleton.mp h)

theorem self_mem_dequePush {α : Type} (cap : Nat) (l : List α) (x : α) :
    x ∈ dequePush cap l x := by
  unfold dequePush
  split <;> simp

theorem new_in_id_preserving_map {h : List Alert} {g : Alert → Alert}
    (hg : ∀ a, (g a).id = a.id) {b : Alert} (hb : b ∈ h.map g)
    (hnew : ∀ a ∈ h, a.id ≠ b.id) : False := by
  obtain ⟨a0, ha0, hba⟩ := List.mem_map.mp hb
  exact hnew a0 ha0 (by rw [← hba, hg a0])

theorem suppress_update_id_preserving (aid : String) :
    ∀ a : Alert,
      ((fun a : Alert => if a.id == aid
        then { a with status := AlertStatus.suppressed } else a) a).id
      = a.id := by
  intro a
  by_cases h : a.id = aid <;> simp [h]

/-- `_should_suppress_alert` leaves the history untouched or rewrites
the status of the alert with the given id to `suppressed` in place. -/
theorem shouldSuppressAlert_history (alert : Alert) (now : ℚ)
    (s : ManagerState) :
    (shouldSuppressAlert alert now s).2.alert_history = s.alert_history
    ∨ (shouldSuppressAlert alert now s).2.alert_history
        = s.alert_history.map (fun a => if a.id == alert.id
            then { a with status := AlertStatus.suppressed } else a) := by
  unfold shouldSuppressAlert
  by_cases h1 : (dequePush 100
      (((lookupD s.alert_counts alert.rule_id).getD []).dropWhile
        (fun t => decide (t < now - 3600))) now).length > 10
  · simp only [h1, if_true]
    exact Or.inr rfl
  · simp only [h1, if_false]
    by_cases h2 : (s.suppression_rules.any
        (fun r => matchesSuppressionRule alert r)) = true
    · simp only [h2, if_true]
      exact Or.inr rfl
    · simp only [h2, if_false]
      exact Or.inl rfl

/-- `_is_cooldown_active` returning false means every retained history
alert for the rule was created at or before `now - cooldown`. -/
theorem isCooldownActive_false_forall {rid : String} {now : ℚ}
    {s : ManagerState} {rule : AlertRule}
    (hrule : lookupD s.rules rid = some rule)
    (h : isCooldownActive rid now s = false) :
    ∀ a ∈ s.alert_history, a.rule_id = rid →
      a.created_at ≤ now - rule.cooldown_minutes * 60 := by
  intro a ha hrid
  unfold isCooldownActive at h
  rw [hrule] at h
  have := List.any_eq_false.mp h a ha
  simp only [hrid, beq_self_eq_true, Bool.true_and,
    decide_eq_false_iff_not, not_lt] at this
  exact le_of_not_lt (by simpa using this)

/-- C3: any alert newly added to the history by one evaluation of a
registered rule was created at `now`, and every alert for that rule
already retained in the history is at least `cooldown_minutes` older —
the engine refuses to create while any such alert is inside the
trailing cooldown window. -/
theorem evaluateRule_cooldown_spec (sqrtF : ℚ → ℚ) (rule : AlertRule)
    (metrics : MetricsSummary) (now : ℚ) (s : ManagerState)
    (hrule : lookupD s.rules rule.id = some rule) :
    ∀ b ∈ (evaluateRule sqrtF rule metrics now s).1.alert_history,
      (∀ a ∈ s.alert_history, a.id ≠ b.id) →
      b.created_at = now ∧
      ∀ a ∈ s.alert_history, a.rule_id = rule.id →
        rule.cooldown_minutes * 60 ≤ b.created_at - a.created_at := by
  intro b hb hnew
  unfold evaluateRule at hb
  cases hv : getMetricValue rule.metric metrics with
  | none =>
    rw [hv] at hb
    exact absurd rfl (hnew b hb)
  | some v =>
    rw [hv] at hb
    simp only at hb
    set s1 : ManagerState :=
      { s with det := addMetricValue sqrtF rule.metric v now s.det } with hs1
    by_cases hcond : checkCondition rule v s1.det = true
    · rw [if_pos hcond] at hb
      cases hex : getActiveAlertForRule rule.id s1 with
      | some ex =>
        rw [hex] at hb
        simp only at hb
        exact absurd hb (fun hb => new_in_id_preserving_map
          (fun a => by by_cases h : a.id = ex.id <;> simp [h]) hb hnew)
      | none =>
        rw [hex] at hb
        simp only at hb
        by_cases hcool : isCooldownActive rule.id now s1 = true
        · rw [if_pos hcool] at hb
          exact absurd rfl (hnew b hb)
        · rw [if_neg hcool] at hb
          set newAlert := (createAlert rule v now s1).1 with hna
          have hhist2 : (createAlert rule v now s1).2.alert_history
              = dequePush 10000 s.alert_history newAlert := rfl
          have hsup := shouldSuppressAlert_history newAlert now
            (createAlert rule v now s1).2
          have hbmem : b ∈ (shouldSuppressAlert newAlert now
              (createAlert rule v now s1).2).2.alert_history := by
            by_cases hflag : (shouldSuppressAlert newAlert now
                (createAlert rule v now s1).2).1 = true
            · rw [if_pos hflag] at hb
              exact hb
            · rw [if_neg hflag] at hb
              exact hb
          have hcool2 : isCooldownActive rule.id now s = false := by
            rw [← isCooldownActive_det rule.id now
              (addMetricValue sqrtF rule.metric v now s.det) s]
            exact Bool.not_eq_true _ ▸ (by simpa using hcool)
          have hold := isCooldownActive_false_forall hrule hcool2
          have hbchar : b.created_at = now ∧ b.rule_id = rule.id := by
            rcases hsup with hsame | hmap
            · rw [hsame, hhist2] at hbmem
              rcases mem_dequePush hbmem with hmem | rfl
              · exact absurd rfl (hnew b hmem)
              · exact ⟨rfl, rfl⟩
            · rw [hmap, hhist2] at hbmem
              obtain ⟨a0, ha0, hba⟩ := List.mem_map.mp hbmem
              rcases mem_dequePush ha0 with hmem | rfl
              · exfalso
                refine hnew a0 hmem ?_
                rw [← hba]
                by_cases h : a0.id = newAlert.id <;> simp [h]
              · rw [← hba, hna]
                simp [createAlert]
          refine ⟨hbchar.1, fun a ha hrid => ?_⟩
          have := hold a ha hrid
          rw [hbchar.1]
          linarith
    · rw [if_neg hcond] at hb
      cases hex : getActiveAlertForRule rule.id s1 with
      | some ex =>
        rw [hex] at hb
        simp only at hb
        by_cases hst : (ex.status == AlertStatus.active) = true
        · rw [if_pos hst] at hb
          refine absurd hb (fun hb => ?_)
          unfold resolveAlert updateAlertInState at hb
          simp only at hb
          exact new_in_id_preserving_map
            (fun a => by by_cases h : a.id = ex.id <;> simp [h]) hb hnew
        · rw [if_neg hst] at hb
          exact absurd rfl (hnew b hb)
      | none =>
        rw [hex] at hb
        exact absurd rfl (hnew b hb)

/-- C3 witness: on a store whose only history alert for `r1` is 2000
seconds old (cooldown 30 minutes = 1800 s), evaluation creates
`sampleCreatedAlert` at 2000, at least 1800 s after every retained
alert of the rule. -/
theorem evaluateRule_cooldown_spec_witness :
    sampleCreatedAlert.created_at = 2000 ∧
    ∀ a ∈ sampleCooldownState.alert_history, a.rule_id = sampleRule.id →
      sampleRule.cooldown_minutes * 60
        ≤ sampleCreatedAlert.created_at - a.created_at :=
  evaluateRule_cooldown_spec (fun _ => 0) sampleRule sampleMetricsHigh
    2000 sampleCooldownState (by decide) sampleCreatedAlert (by decide)
    (by decide)

/-! ## C2: frequency suppression and no sends when suppressed -/

theorem dequePush_length_gt_10 {l : List ℚ} (h : 10 ≤ l.length)
    (x : ℚ) : 10 < (dequePush 100 l x).length := by
  unfold dequePush
  split <;> simp only [List.length_append, List.length_tail,
    List.length_singleton] <;> omega

/-- Once at least ten timestamps survive the trailing-hour cleaning,
`_should_suppress_alert` takes the frequency branch: it reports
suppression and rewrites the alert's status to `suppressed` in the
history. -/
theorem shouldSuppressAlert_frequency (alert : Alert) (now : ℚ)
    (s : ManagerState)
    (hlen : 10 < (dequePush 100
      (((lookupD s.alert_counts alert.rule_id).getD []).dropWhile
        (fun t => decide (t < now - 3600))) now).length) :
    (shouldSuppressAlert alert now s).1 = true ∧
    (shouldSuppressAlert alert now s).2.alert_history
      = s.alert_history.map (fun a => if a.id == alert.id
          then { a with status := AlertStatus.suppressed } else a) := by
  unfold shouldSuppressAlert
  rw [if_pos hlen]
  exact ⟨rfl, rfl⟩

/-- C2: with at least ten alert timestamps for the rule already inside
the trailing 60-minute window, the alert created by this evaluation is
recorded with status `suppressed` and nothing is dispatched; moreover
the escalation executor sends nothing for an alert that is never
observed `active`. -/
theorem evaluateRule_suppression_spec (sqrtF : ℚ → ℚ) (rule : AlertRule)
    (metrics : MetricsSummary) (now : ℚ) (s : ManagerState) (v : ℚ)
    (hv : getMetricValue rule.metric metrics = some v)
    (hcond : checkCondition rule v
      (addMetricValue sqrtF rule.metric v now s.det) = true)
    (hex : getActiveAlertForRule rule.id s = none)
    (hcool : isCooldownActive rule.id now s = false)
    (hcnt : 10 ≤ (((lookupD s.alert_counts rule.id).getD []).dropWhile
      (fun t => decide (t < now - 3600))).length) :
    (evaluateRule sqrtF rule metrics now s).2 = none ∧
    (∃ b ∈ (evaluateRule sqrtF rule metrics now s).1.alert_history,
      b.rule_id = rule.id ∧ b.created_at = now ∧
      b.status = AlertStatus.suppressed) ∧
    (∀ registry statusAt sendOk steps,
      (∀ k, statusAt k ≠ AlertStatus.active) →
      executeEscalation registry statusAt sendOk steps = []) := by
  rw [evaluateRule_eq_create sqrtF rule metrics now s v hv hcond hex hcool]
  simp only
  set s1 : ManagerState :=
    { s with det := addMetricValue sqrtF rule.metric v now s.det } with hs1
  set ac := createAlert rule v now s1 with hac
  have hfreq := shouldSuppressAlert_frequency ac.1 now ac.2
    (dequePush_length_gt_10 hcnt now)
  rw [hfreq.1]
  simp only [if_true]
  refine ⟨trivial, ?_, ?_⟩
  · refine ⟨{ ac.1 with status := AlertStatus.suppressed }, ?_, rfl, rfl,
      rfl⟩
    rw [hfreq.2]
    have hmem : ac.1 ∈ ac.2.alert_history :=
      self_mem_dequePush 10000 s.alert_history ac.1
    have := List.mem_map_of_mem (fun a => if a.id == ac.1.id
      then { a with status := AlertStatus.suppressed } else a) hmem
    simpa using this
  · intro registry statusAt sendOk steps h
    cases steps with
    | nil => rfl
    | cons st rest =>
      unfold executeEscalation executeEscalationFrom
      have h0 : (statusAt (2 * 0) != AlertStatus.active) = true := by
        simpa [bne_iff_ne] using h 0
      rw [if_pos h0]

/-- C2 witness: ten timestamps inside the trailing hour make the
eleventh alert suppressed; no dispatch happens, and an all-suppressed
status trace yields no sends. -/
theorem evaluateRule_suppression_spec_witness :
    (evaluateRule (fun _ => 0) sampleRule sampleMetricsHigh 2000
      sampleSuppressState).2 = none ∧
    (∃ b ∈ (evaluateRule (fun _ => 0) sampleRule sampleMetricsHigh 2000
        sampleSuppressState).1.alert_history,
      b.rule_id = sampleRule.id ∧ b.created_at = 2000 ∧
      b.status = AlertStatus.suppressed) ∧
    (∀ registry statusAt sendOk steps,
      (∀ k, statusAt k ≠ AlertStatus.active) →
      executeEscalation registry statusAt sendOk steps = []) :=
  evaluateRule_suppression_spec (fun _ => 0) sampleRule
    sampleMetricsHigh 2000 sampleSuppressState 9 (by decide) (by decide)
    (by decide) (by decide) (by decide)

/-! ## C5: escalation order, abandonment, and failure isolation -/

theorem bne_active_eq_false {x : AlertStatus}
    (h : (x != AlertStatus.active) ≠ true) : x = AlertStatus.active := by
  simpa [bne_iff_ne] using h

theorem executeEscalationFrom_mem (registry : List String)
    (statusAt : Nat → AlertStatus)
    (sendOk : Nat → String → List String → Bool) :
    ∀ (steps : List EscalationStep) (k : Nat) (e : SendEvent),
      e ∈ executeEscalationFrom registry statusAt sendOk steps k →
      k ≤ e.step ∧ e.step < k + steps.length ∧
      statusAt (2 * e.step) = AlertStatus.active ∧
      statusAt (2 * e.step + 1) = AlertStatus.active := by
  intro steps
  induction steps with
  | nil => intro k e he; cases he
  | cons st rest ih =>
    intro k e he
    unfold executeEscalationFrom at he
    by_cases h0 : (statusAt (2 * k) != AlertStatus.active) = true
    · rw [if_pos h0] at he; cases he
    · rw [if_neg h0] at he
      by_cases h1 : (statusAt (2 * k + 1) != AlertStatus.active) = true
      · rw [if_pos h1] at he; cases he
      · rw [if_neg h1] at he
        rcases List.mem_append.mp he with hh | ht
        · obtain ⟨c, hc, hce⟩ := List.mem_map.mp hh
          have hstep : e.step = k := by rw [← hce]
          refine ⟨le_of_eq hstep.symm, ?_, ?_, ?_⟩
          · rw [hstep]; simp
          · rw [hstep]; exact bne_active_eq_false h0
          · rw [hstep]; exact bne_active_eq_false h1
        · obtain ⟨hk, hlt, h2, h3⟩ := ih (k + 1) e ht
          refine ⟨by omega, ?_, h2, h3⟩
          simp only [List.length_cons]
          omega

theorem executeEscalationFrom_abandon (registry : List String)
    (statusAt : Nat → AlertStatus)
    (sendOk : Nat → String → List String → Bool) (i : Nat)
    (hfail : statusAt (2 * i) ≠ AlertStatus.active
      ∨ statusAt (2 * i + 1) ≠ AlertStatus.active) :
    ∀ (steps : List EscalationStep) (k : Nat), k ≤ i →
      ∀ e ∈ executeEscalationFrom registry statusAt sendOk steps k,
        e.step < i := by
  intro steps
  induction steps with
  | nil => intro k hk e he; cases he
  | cons st rest ih =>
    intro k hk e he
    unfold executeEscalationFrom at he
    by_cases hki : k = i
    · subst hki
      rcases hfail with hf | hf
      · rw [if_pos (by simpa [bne_iff_ne] using hf)] at he
        cases he
      · by_cases h0 : (statusAt (2 * k) != AlertStatus.active) = true
        · rw [if_pos h0] at he; cases he
        · rw [if_neg h0,
            if_pos (by simpa [bne_iff_ne] using hf)] at he
          cases he
    · have hklt : k < i := lt_of_le_of_ne hk hki
      by_cases h0 : (statusAt (2 * k) != AlertStatus.active) = true
      · rw [if_pos h0] at he; cases he
      · rw [if_neg h0] at he
        by_cases h1 : (statusAt (2 * k + 1) != AlertStatus.active) = true
        · rw [if_pos h1] at he; cases he
        · rw [if_neg h1] at he
          rcases List.mem_append.mp he with hh | ht
          · obtain ⟨c, hc, hce⟩ := List.mem_map.mp hh
            have hstep : e.step = k := by rw [← hce]
            omega
          · exact ih (k + 1) (by omega) e ht

theorem pairwise_const_map {α β : Type} (f : α → β)
    (R : β → β → Prop) (l : List α) (h : ∀ a b, R (f a) (f b)) :
    List.Pairwise R (l.map f) := by
  induction l with
  | nil => exact List.Pairwise.nil
  | cons a l ih =>
    refine List.Pairwise.cons (fun b hb => ?_) ih
    obtain ⟨c, -, rfl⟩ := List.mem_map.mp hb
    exact h a c

theorem executeEscalationFrom_sorted (registry : List String)
    (statusAt : Nat → AlertStatus)
    (sendOk : Nat → String → List String → Bool) :
    ∀ (steps : List EscalationStep) (k : Nat),
      List.Pairwise (fun e1 e2 : SendEvent => e1.step ≤ e2.step)
        (executeEscalationFrom registry statusAt sendOk steps k) := by
  intro steps
  induction steps with
  | nil => intro k; exact List.Pairwise.nil
  | cons st rest ih =>
    intro k
    unfold executeEscalationFrom
    by_cases h0 : (statusAt (2 * k) != AlertStatus.active) = true
    · rw [if_pos h0]; exact List.Pairwise.nil
    · rw [if_neg h0]
      by_cases h1 : (statusAt (2 * k + 1) != AlertStatus.active) = true
      · rw [if_pos h1]; exact List.Pairwise.nil
      · rw [if_neg h1]
        rw [List.pairwise_append]
        refine ⟨?_, ih (k + 1), ?_⟩
        · exact pairwise_const_map _ _ _ (fun a b => le_refl k)
        · intro e1 h1m e2 h2m
          obtain ⟨c, hc, hce⟩ := List.mem_map.mp h1m
          have hstep : e1.step = k := by rw [← hce]
          have := (executeEscalationFrom_mem registry statusAt sendOk
            rest (k + 1) e2 h2m).1
          omega

theorem executeEscalationFrom_sendOk_irrelevant (registry : List String)
    (statusAt : Nat → AlertStatus)
    (sendOk sendOk2 : Nat → String → List String → Bool) :
    ∀ (steps : List EscalationStep) (k : Nat),
      (executeEscalationFrom registry statusAt sendOk steps k).map
        (fun e => (e.step, e.channel, e.recipients))
      = (executeEscalationFrom registry statusAt sendOk2 steps k).map
          (fun e => (e.step, e.channel, e.recipients)) := by
  intro steps
  induction steps with
  | nil => intro k; rfl
  | cons st rest ih =>
    intro k
    unfold executeEscalationFrom
    by_cases h0 : (statusAt (2 * k) != AlertStatus.active) = true
    · rw [if_pos h0, if_pos h0]
    · rw [if_neg h0, if_neg h0]
      by_cases h1 : (statusAt (2 * k + 1) != AlertStatus.active) = true
      · rw [if_pos h1, if_pos h1]
      · rw [if_neg h1, if_neg h1]
        rw [List.map_append, List.map_append, List.map_map, List.map_map,
          ih (k + 1)]
        congr 1

/-- C5: escalation visits steps in list order (send events carry
non-decreasing step indices); every send happens at a step whose pre-
and post-delay status checks both observed `active`; a non-`active`
observation at either check of step `i` abandons the whole remaining
policy (no event at step `i` or later); and the attempted sends do not
depend on send outcomes, so a channel failure aborts nothing. -/
theorem executeEscalation_spec (registry : List String)
    (statusAt : Nat → AlertStatus)
    (sendOk : Nat → String → List String → Bool)
    (steps : List EscalationStep) :
    (∀ e ∈ executeEscalation registry statusAt sendOk steps,
      statusAt (2 * e.step) = AlertStatus.active ∧
      statusAt (2 * e.step + 1) = AlertStatus.active ∧
      e.step < steps.length) ∧
    List.Pairwise (fun e1 e2 : SendEvent => e1.step ≤ e2.step)
      (executeEscalation registry statusAt sendOk steps) ∧
    (∀ i, (statusAt (2 * i) ≠ AlertStatus.active
        ∨ statusAt (2 * i + 1) ≠ AlertStatus.active) →
      ∀ e ∈ executeEscalation registry statusAt sendOk steps,
        e.step < i) ∧
    (∀ sendOk2 : Nat → String → List String → Bool,
      (executeEscalation registry statusAt sendOk steps).map
        (fun e => (e.step, e.channel, e.recipients))
      = (executeEscalation registry statusAt sendOk2 steps).map
          (fun e => (e.step, e.channel, e.recipients))) := by
  refine ⟨?_, ?_, ?_, ?_⟩
  · intro e he
    obtain ⟨-, hlt, h2, h3⟩ := executeEscalationFrom_mem registry statusAt
      sendOk steps 0 e he
    exact ⟨h2, h3, by omega⟩
  · exact executeEscalationFrom_sorted registry statusAt sendOk steps 0
  · intro i hfail e he
    exact executeEscalationFrom_abandon registry statusAt sendOk i hfail
      steps 0 (Nat.zero_le i) e he
  · intro sendOk2
    exact executeEscalationFrom_sendOk_irrelevant registry statusAt
      sendOk sendOk2 steps 0

/-- C5 witness: on a trace that goes non-`active` during step 1's
delay, the only send is step 0's (all its sends failing changes
nothing). -/
theorem executeEscalation_spec_witness :
    ({ step := 0, channel := "email", recipients := ["oncall"]
       ok := false } : SendEvent).step < 1 :=
  (executeEscalation_spec ["email"] witnessStatusTrace witnessSendOk
      witnessSteps).2.2.1 1 (Or.inr (by decide)) _ (by decide)

/-! ## C9: journey short-circuiting -/

theorem runJourneySteps_all_pass (journey : UserJourney)
    (resp : Nat → StepResponse) (total_ms : ℚ) :
    ∀ (steps : List JourneyStep) (i : Nat)
      (acc : List (Nat × StepDetail)),
      (∀ j (hj : j < steps.length),
        stepPasses (steps.get ⟨j, hj⟩) (resp (i + j)) = true) →
      runJourneySteps journey resp total_ms steps i acc
        = { check_id := journey.id, check_name := journey.name
            status := CheckStatus.success, response_time_ms := total_ms
            response_status := some 200, response_size := 0
            error_message := none
            details := acc ++ stepDetails resp steps i } := by
  intro steps
  induction steps with
  | nil =>
    intro i acc hpass
    simp [runJourneySteps, stepDetails]
  | cons st rest ih =>
    intro i acc hpass
    have h0 : stepPasses st (resp i) = true := by
      have := hpass 0 (by simp)
      simpa using this
    unfold stepPasses at h0
    rw [Bool.and_eq_true] at h0
    unfold runJourneySteps
    dsimp only
    rw [show ((resp i).status != st.expected_status) = false from
      by simp [bne, h0.1]]
    simp only [Bool.false_eq_true, if_false]
    have hrec := ih (i + 1) (acc ++ [(i + 1, mkDetail st (resp i))])
      (fun j hj => by
        have := hpass (j + 1) (by simpa using Nat.succ_lt_succ hj)
        simpa [Nat.add_assoc, Nat.add_comm 1 j] using this)
    cases hec : st.expected_content with
    | none =>
      rw [hec] at h0
      simp only
      rw [hrec, List.append_assoc]
      congr 1
    | some expected =>
      rw [hec] at h0
      have hinf : (!(expected.toList.IsInfix (resp i).content.toList
          : Bool)) = false := by
        simpa using h0.2
      simp only [hinf, Bool.false_eq_true, if_false]
      rw [hrec, List.append_assoc]
      congr 1

theorem runJourneySteps_first_failure (journey : UserJourney)
    (resp : Nat → StepResponse) (total_ms : ℚ) :
    ∀ (pre : List JourneyStep) (i : Nat)
      (acc : List (Nat × StepDetail)) (fail : JourneyStep)
      (post : List JourneyStep),
      (∀ j (hj : j < pre.length),
        stepPasses (pre.get ⟨j, hj⟩) (resp (i + j)) = true) →
      stepPasses fail (resp (i + pre.length)) = false →
      runJourneySteps journey resp total_ms (pre ++ fail :: post) i acc
        = { check_id := journey.id, check_name := journey.name
            status := CheckStatus.failure, response_time_ms := total_ms
            response_status := some (resp (i + pre.length)).status
            response_size := (resp (i + pre.length)).content.length
            error_message := some
              (if (resp (i + pre.length)).status != fail.expected_status
                then statusFailMsg fail (resp (i + pre.length)).status
                else contentFailMsg fail)
            details := acc ++ stepDetails resp pre i
              ++ [(i + pre.length + 1,
                    mkDetail fail (resp (i + pre.length)))] } := by
  intro pre
  induction pre with
  | nil =>
    intro i acc fail post hpass hfail
    unfold stepPasses at hfail
    simp only [List.length_nil, Nat.add_zero] at hfail ⊢
    rw [List.nil_append]
    unfold runJourneySteps
    dsimp only
    by_cases hst : ((resp i).status != fail.expected_status) = true
    · simp only [hst, if_true]
      simp [stepDetails]
    · have hst2 : ((resp i).status == fail.expected_status) = true := by
        simpa [bne] using hst
      rw [hst2, Bool.true_and] at hfail
      cases hec : fail.expected_content with
      | none => rw [hec] at hfail; cases hfail
      | some expected =>
        rw [hec] at hfail
        simp only [Bool.not_eq_true] at hst
        simp only [hst, Bool.false_eq_true, if_false, hec]
        rw [show (!(expected.toList.IsInfix (resp i).content.toList
            : Bool)) = true from by simpa using hfail]
        simp [stepDetails]
  | cons st rest ih =>
    intro i acc fail post hpass hfail
    have h0 : stepPasses st (resp i) = true := by
      have := hpass 0 (by simp)
      simpa using this
    unfold stepPasses at h0
    rw [Bool.and_eq_true] at h0
    rw [List.cons_append]
    unfold runJourneySteps
    dsimp only
    rw [show ((resp i).status != st.expected_status) = false from
      by simp [bne, h0.1]]
    simp only [Bool.false_eq_true, if_false]
    have hrec := ih (i + 1) (acc ++ [(i + 1, mkDetail st (resp i))]) fail
      post
      (fun j hj => by
        have := hpass (j + 1) (by simpa using Nat.succ_lt_succ hj)
        simpa [Nat.add_assoc, Nat.add_comm 1 j] using this)
      (by
        have : i + 1 + rest.length = i + (rest.length + 1) := by omega
        rw [this]
        simpa using hfail)
    have hlen : i + 1 + rest.length = i + (st :: rest).length := by
      simp only [List.length_cons]
      omega
    cases hec : st.expected_content with
    | none =>
      simp only
      rw [hrec, hlen]
      congr 1
      simp [stepDetails, List.append_assoc]
    | some expected =>
      rw [hec] at h0
      have hinf : (!(expected.toList.IsInfix (resp i).content.toList
          : Bool)) = false := by
        simpa using h0.2
      simp only [hinf, Bool.false_eq_true, if_false]
      rw [hrec, hlen]
      congr 1
      simp [stepDetails, List.append_assoc]

/-- C9 counterexample: a step that fails only on missing expected
content is recorded in `details` with `success = true` (the flag stores
just the status comparison), so the claim's "failing step marked
unsuccessful" is false as stated. -/
theorem journey_content_failure_marked_successful :
    (executeJourney cexJourney cexResp 5).status = CheckStatus.failure ∧
    (executeJourney cexJourney cexResp 5).details.map
      (fun p => p.2.success) = [true] := by decide

/-- C9 (amended): journey execution walks the steps in order and
short-circuits at the first failing step; the result is `failure` with
an error message naming that step, and `details` holds exactly the
executed steps — every earlier (passing) step marked successful, while
the failing step's `success` flag records only the status comparison
(false on a status mismatch, true on a content mismatch); if every step
passes, the result is `success` with per-step timing details for all
steps. -/
theorem executeJourney_spec (journey : UserJourney)
    (resp : Nat → StepResponse) (total_ms : ℚ) :
    ((∀ j (hj : j < journey.steps.length),
        stepPasses (journey.steps.get ⟨j, hj⟩) (resp j) = true) →
      executeJourney journey resp total_ms
        = { check_id := journey.id, check_name := journey.name
            status := CheckStatus.success, response_time_ms := total_ms
            response_status := some 200, response_size := 0
            error_message := none
            details := stepDetails resp journey.steps 0 }) ∧
    (∀ pre fail post, journey.steps = pre ++ fail :: post →
      (∀ j (hj : j < pre.length),
        stepPasses (pre.get ⟨j, hj⟩) (resp j) = true) →
      stepPasses fail (resp pre.length) = false →
      executeJourney journey resp total_ms
        = { check_id := journey.id, check_name := journey.name
            status := CheckStatus.failure, response_time_ms := total_ms
            response_status := some (resp pre.length).status
            response_size := (resp pre.length).content.length
            error_message := some
              (if (resp pre.length).status != fail.expected_status
                then statusFailMsg fail (resp pre.length).status
                else contentFailMsg fail)
            details := stepDetails resp pre 0
              ++ [(pre.length + 1, mkDetail fail (resp pre.length))] }) ∧
    (∀ (steps : List JourneyStep) (i : Nat),
      (∀ j (hj : j < steps.length),
        stepPasses (steps.get ⟨j, hj⟩) (resp (i + j)) = true) →
      ∀ e ∈ stepDetails resp steps i, e.2.success = true) := by
  refine ⟨?_, ?_, ?_⟩
  · intro hpass
    unfold executeJourney
    rw [runJourneySteps_all_pass journey resp total_ms journey.steps 0 []
      (fun j hj => by simpa using hpass j hj)]
    rw [List.nil_append]
  · intro pre fail post hsteps hpass hfail
    unfold executeJourney
    rw [hsteps]
    rw [runJourneySteps_first_failure journey resp total_ms pre 0 [] fail
      post (fun j hj => by simpa using hpass j hj)
      (by simpa using hfail)]
    simp only [Nat.zero_add, List.nil_append]
  · intro steps
    induction steps with
    | nil => intro i hpass e he; cases he
    | cons st rest ih =>
      intro i hpass e he
      rcases List.mem_cons.mp he with rfl | he
      · have h0 : stepPasses st (resp i) = true := by
          have := hpass 0 (by simp)
          simpa using this
        unfold stepPasses at h0
        rw [Bool.and_eq_true] at h0
        simpa [mkDetail] using h0.1
      · refine ih (i + 1) (fun j hj => ?_) e he
        have := hpass (j + 1) (by simpa using Nat.succ_lt_succ hj)
        simpa [Nat.add_assoc, Nat.add_comm 1 j] using this

/-- C9 witness: in the three-step journey whose second request comes
back 500, execution stops at step 2; the details hold step 1
(successful) and step 2 (unsuccessful) only. -/
theorem executeJourney_spec_witness :
    executeJourney wJourney wResp 9
      = { check_id := wJourney.id, check_name := wJourney.name
          status := CheckStatus.failure, response_time_ms := 9
          response_status := some (wResp 1).status
          response_size := (wResp 1).content.length
          error_message := some
            (if (wResp 1).status != wStep2.expected_status
              then statusFailMsg wStep2 (wResp 1).status
              else contentFailMsg wStep2)
          details := stepDetails wResp [wStep1] 0
            ++ [(2, mkDetail wStep2 (wResp 1))] } :=
  (executeJourney_spec wJourney wResp 9).2.1 [wStep1] wStep2 [wStep3]
    (by decide) (by decide) (by decide)

/-! ## C8: pattern-signature normalization -/

theorem applySubAux_nil (try1 : Option Char → List Char → Option Nat)
    (repl : List Char) (fuel : Nat) (prev : Option Char) :
    applySubAux try1 repl fuel prev [] = [] := by
  cases fuel <;> rfl

theorem applySubAux_skip (try1 : Option Char → List Char → Option Nat)
    (repl : List Char) (fuel : Nat) (prev : Option Char) (c : Char)
    (cs : List Char) (h : try1 prev (c :: cs) = none) :
    applySubAux try1 repl (fuel + 1) prev (c :: cs)
      = c :: applySubAux try1 repl fuel (some c) cs := by
  conv_lhs => rw [applySubAux]
  rw [h]

theorem applySubAux_match (try1 : Option Char → List Char → Option Nat)
    (repl : List Char) (fuel : Nat) (prev : Option Char) (c : Char)
    (cs : List Char) (n : Nat) (h : try1 prev (c :: cs) = some (n + 1)) :
    applySubAux try1 repl (fuel + 1) prev (c :: cs)
      = repl ++ applySubAux try1 repl fuel ((c :: cs).get? n)
          (List.drop (n + 1) (c :: cs)) := by
  conv_lhs => rw [applySubAux]
  rw [h]

theorem applySubAux_id (try1 : Option Char → List Char → Option Nat)
    (repl : List Char) :
    ∀ (fuel : Nat) (prev : Option Char) (cs : List Char),
      (∀ (prev' : Option Char) (cs' : List Char), cs' <:+ cs →
        try1 prev' cs' = none) →
      applySubAux try1 repl fuel prev cs = cs := by
  intro fuel
  induction fuel with
  | zero => intro prev cs _; rfl
  | succ f ih =>
    intro prev cs h
    cases cs with
    | nil => rfl
    | cons c cs' =>
      rw [applySubAux_skip try1 repl f prev c cs'
        (h prev (c :: cs') (List.suffix_refl _))]
      rw [ih (some c) cs' (fun p' l' hl' =>
        h p' l' (hl'.trans (List.suffix_cons c cs')))]

theorem applySub_id (try1 : Option Char → List Char → Option Nat)
    (repl : List Char) (cs : List Char)
    (h : ∀ (prev' : Option Char) (cs' : List Char), cs' <:+ cs →
      try1 prev' cs' = none) :
    applySub try1 repl cs = cs :=
  applySubAux_id try1 repl cs.length none cs h

theorem matchCount_suffix (p : Char → Bool) :
    ∀ (k : Nat) (cs rest : List Char),
      matchCount p k cs = some rest → rest <:+ cs := by
  intro k
  induction k with
  | zero =>
    intro cs rest h
    cases h
    exact List.suffix_refl _
  | succ k ih =>
    intro cs rest h
    cases cs with
    | nil => cases h
    | cons c cs' =>
      unfold matchCount at h
      by_cases hp : p c = true
      · rw [if_pos hp] at h
        exact (ih cs' rest h).trans (List.suffix_cons c cs')
      · rw [if_neg hp] at h
        cases h

theorem matchLit_toLower {lit : Char} {cs rest : List Char}
    (h : matchLit lit cs = some rest) :
    ∃ c, cs = c :: rest ∧ c.toLower = lit.toLower := by
  cases cs with
  | nil => cases h
  | cons c cs' =>
    simp only [matchLit] at h
    by_cases hc : (c.toLower == lit.toLower) = true
    · rw [if_pos hc] at h
      cases h
      exact ⟨c, rfl, by simpa using hc⟩
    · rw [if_neg hc] at h
      cases h

/-- The ISO-timestamp pattern needs a literal dash. -/
theorem tryIsoTs_none {cs : List Char}
    (h : ∀ c ∈ cs, c.toLower ≠ '-') (prev : Option Char) :
    tryIsoTs prev cs = none := by
  unfold tryIsoTs
  cases hm : matchCount isDigitC 4 cs with
  | none => rfl
  | some r1 =>
    cases hl : matchLit '-' r1 with
    | none => simp [hl]
    | some r2 =>
      obtain ⟨c, hc1, hc2⟩ := matchLit_toLower hl
      have hmem : c ∈ cs :=
        (matchCount_suffix isDigitC 4 cs r1 hm).subset (hc1 ▸ List.mem_cons_self c r2)
      exact absurd hc2 (h c hmem)

/-- The standard-timestamp pattern needs a literal dash. -/
theorem tryStdTs_none {cs : List Char}
    (h : ∀ c ∈ cs, c.toLower ≠ '-') (prev : Option Char) :
    tryStdTs prev cs = none := by
  unfold tryStdTs
  cases hm : matchCount isDigitC 4 cs with
  | none => rfl
  | some r1 =>
    cases hl : matchLit '-' r1 with
    | none => simp [hl]
    | some r2 =>
      obtain ⟨c, hc1, hc2⟩ := matchLit_toLower hl
      have hmem : c ∈ cs :=
        (matchCount_suffix isDigitC 4 cs r1 hm).subset (hc1 ▸ List.mem_cons_self c r2)
      exact absurd hc2 (h c hmem)

/-- The UUID pattern needs a literal dash. -/
theorem tryUuid_none {cs : List Char}
    (h : ∀ c ∈ cs, c.toLower ≠ '-') (prev : Option Char) :
    tryUuid prev cs = none := by
  unfold tryUuid
  cases cs with
  | nil => rfl
  | cons c0 cs' =>
    dsimp only
    by_cases hb : (!(isHexC c0 && atBoundary prev c0)) = true
    · rw [if_pos hb]
    · rw [if_neg hb]
      cases hm : matchCount isHexC 8 (c0 :: cs') with
      | none => rfl
      | some r1 =>
        cases hl : matchLit '-' r1 with
        | none => simp [hl]
        | some r2 =>
          obtain ⟨c, hc1, hc2⟩ := matchLit_toLower hl
          have hmem : c ∈ c0 :: cs' :=
            (matchCount_suffix isHexC 8 _ r1 hm).subset
              (hc1 ▸ List.mem_cons_self c r2)
          exact absurd hc2 (h c hmem)

/-- The IP pattern needs a literal dot. -/
theorem tryIp_none {cs : List Char}
    (h : ∀ c ∈ cs, c.toLower ≠ '.') (prev : Option Char) :
    tryIp prev cs = none := by
  unfold tryIp
  cases cs with
  | nil => rfl
  | cons c0 cs' =>
    dsimp only
    by_cases hb : (!(isDigitC c0 && atBoundary prev c0)) = true
    · rw [if_pos hb]
    · rw [if_neg hb]
      cases hl : matchLit '.'
          ((c0 :: cs').drop (runLength isDigitC (c0 :: cs'))) with
      | none => rfl
      | some r1 =>
        obtain ⟨c, hc1, hc2⟩ := matchLit_toLower hl
        have hmem : c ∈ c0 :: cs' :=
          (List.drop_suffix (runLength isDigitC (c0 :: cs'))
            (c0 :: cs')).subset (hc1 ▸ List.mem_cons_self c r1)
        exact absurd hc2 (h c hmem)

/-- The email pattern needs a literal at sign. -/
theorem tryEmail_none {cs : List Char}
    (h : ∀ c ∈ cs, c.toLower ≠ '@') (prev : Option Char) :
    tryEmail prev cs = none := by
  unfold tryEmail
  cases cs with
  | nil => rfl
  | cons c0 cs' =>
    dsimp only
    by_cases hb : (!(isLocalC c0 && atBoundary prev c0)) = true
    · rw [if_pos hb]
    · rw [if_neg hb]
      cases hl : matchLit '@'
          ((c0 :: cs').drop (runLength isLocalC (c0 :: cs'))) with
      | none => rfl
      | some r1 =>
        obtain ⟨c, hc1, hc2⟩ := matchLit_toLower hl
        have hmem : c ∈ c0 :: cs' :=
          (List.drop_suffix (runLength isLocalC (c0 :: cs'))
            (c0 :: cs')).subset (hc1 ▸ List.mem_cons_self c r1)
        exact absurd hc2 (h c hmem)

/-- The API-path pattern needs a literal slash. -/
theorem tryApiPath_none {cs : List Char}
    (h : ∀ c ∈ cs, c.toLower ≠ '/') (prev : Option Char) :
    tryApiPath prev cs = none := by
  unfold tryApiPath
  cases hl : matchLits "/api/".data cs with
  | none => rfl
  | some r =>
    exfalso
    have : matchLits "/api/".data cs
        = (matchLit '/' cs).bind (matchLits "api/".data) := rfl
    rw [this] at hl
    cases hm : matchLit '/' cs with
    | none => rw [hm] at hl; cases hl
    | some r1 =>
      obtain ⟨c, hc1, hc2⟩ := matchLit_toLower hm
      exact absurd hc2 (h c (hc1 ▸ List.mem_cons_self c r1))

/-- The user-id pattern needs a literal letter u. -/
theorem tryUserId_none {cs : List Char}
    (h : ∀ c ∈ cs, c.toLower ≠ 'u') (prev : Option Char) :
    tryUserId prev cs = none := by
  unfold tryUserId
  cases hl : matchLits "user_id=".data cs with
  | none => rfl
  | some r =>
    exfalso
    have : matchLits "user_id=".data cs
        = (matchLit 'u' cs).bind (matchLits "ser_id=".data) := rfl
    rw [this] at hl
    cases hm : matchLit 'u' cs with
    | none => rw [hm] at hl; cases hl
    | some r1 =>
      obtain ⟨c, hc1, hc2⟩ := matchLit_toLower hm
      exact absurd hc2 (h c (hc1 ▸ List.mem_cons_self c r1))

theorem toLower_of_digit {c : Char} (h : isDigitC c = true) :
    c.toLower = c := by
  unfold isDigitC at h
  rw [Bool.and_eq_true] at h
  have h9 : c ≤ '9' := by
    have := h.2
    exact of_decide_eq_true this
  rw [Char.le_def] at h9
  have h9n : c.toNat ≤ 57 := h9
  unfold Char.toLower
  rw [if_neg]
  omega

theorem tryNumber_head_nondigit {c : Char} (h : isDigitC c = false)
    (prev : Option Char) (cs : List Char) :
    tryNumber prev (c :: cs) = none := by
  simp [tryNumber, h]

theorem runLength_append {p : Char → Bool} :
    ∀ (l1 l2 : List Char), (∀ c ∈ l1, p c = true) →
      (∀ c cs2, l2 = c :: cs2 → p c = false) →
      runLength p (l1 ++ l2) = l1.length := by
  intro l1
  induction l1 with
  | nil =>
    intro l2 _ h2
    cases l2 with
    | nil => rfl
    | cons c cs2 => simp [runLength, h2 c cs2 rfl]
  | cons c l1' ih =>
    intro l2 h1 h2
    simp only [List.cons_append, runLength, h1 c (List.mem_cons_self c l1'),
      if_true, List.length_cons, List.append_eq]
    rw [ih l2 (fun x hx => h1 x (List.mem_cons_of_mem c hx)) h2]

theorem tryNumber_cons (prev : Option Char) (c : Char)
    (cs : List Char) :
    tryNumber prev (c :: cs)
      = if !(isDigitC c && atBoundary prev c) then none
        else if boundaryAfter
            ((c :: cs).drop (runLength isDigitC (c :: cs))) = true
          then some (runLength isDigitC (c :: cs)) else none := rfl

theorem tryNumber_match {prev : Option Char} {ds rest : List Char}
    (h1 : ds ≠ []) (h2 : ∀ c ∈ ds, isDigitC c = true)
    (hp : prevWord prev = false)
    (hrest : ∀ c cs2, rest = c :: cs2 → isWordC c = false)
    (hb : boundaryAfter rest = true) :
    tryNumber prev (ds ++ rest) = some ds.length := by
  obtain ⟨d, ds', rfl⟩ := List.exists_cons_of_ne_nil h1
  have hd : isDigitC d = true := h2 d (List.mem_cons_self d ds')
  have hrun : runLength isDigitC ((d :: ds') ++ rest)
      = (d :: ds').length :=
    runLength_append (d :: ds') rest h2
      (fun c cs2 hc => by
        have hw := hrest c cs2 hc
        unfold isWordC at hw
        rcases Bool.or_eq_false_iff.mp hw with ⟨hw1, -⟩
        exact (Bool.or_eq_false_iff.mp hw1).2)
  rw [show (d :: ds') ++ rest = d :: (ds' ++ rest) from rfl,
    tryNumber_cons]
  have hbd : atBoundary prev d = true := by
    unfold atBoundary
    rw [hp]
    have : isWordC d = true := by
      unfold isWordC
      rw [hd]
      simp
    rw [this]
    rfl
  rw [show (!(isDigitC d && atBoundary prev d)) = false from
    by rw [hd, hbd]; rfl]
  simp only [Bool.false_eq_true, if_false]
  have hrun2 : runLength isDigitC (d :: (ds' ++ rest))
      = (d :: ds').length := hrun
  rw [hrun2]
  rw [show List.drop (d :: ds').length (d :: (ds' ++ rest)) = rest from
    List.drop_left (d :: ds') rest]
  rw [hb]
  rfl

theorem applySubAux_skip_block
    (try1 : Option Char → List Char → Option Nat) (repl : List Char) :
    ∀ (block rest : List Char) (prev : Option Char) (fuel : Nat),
      (∀ (prev' : Option Char) (c : Char) (cs' : List Char),
        c ∈ block → try1 prev' (c :: cs') = none) →
      block.length + rest.length ≤ fuel →
      applySubAux try1 repl fuel prev (block ++ rest)
        = block ++ applySubAux try1 repl (fuel - block.length)
            (lastOr prev block) rest := by
  intro block
  induction block with
  | nil =>
    intro rest prev fuel _ _
    simp [lastOr]
  | cons c bl ih =>
    intro rest prev fuel hfail hle
    cases fuel with
    | zero =>
      exfalso
      simp only [List.length_cons] at hle
      omega
    | succ f =>
      rw [List.cons_append,
        applySubAux_skip try1 repl f prev c (bl ++ rest)
          (hfail prev c (bl ++ rest) (List.mem_cons_self c bl)),
        ih rest (some c) f
          (fun p' x l' hx => hfail p' x l' (List.mem_cons_of_mem c hx))
          (by simp only [List.length_cons] at hle; omega)]
      rw [show (lastOr prev (c :: bl)) = lastOr (some c) bl from rfl]
      rw [show ((f + 1) - (c :: bl).length) = f - bl.length from by
        simp only [List.length_cons]
        omega]
      rfl

theorem applySubAux_skip_all
    (try1 : Option Char → List Char → Option Nat) (repl : List Char) :
    ∀ (block : List Char) (prev : Option Char) (fuel : Nat),
      (∀ (prev' : Option Char) (c : Char) (cs' : List Char),
        c ∈ block → try1 prev' (c :: cs') = none) →
      block.length ≤ fuel →
      applySubAux try1 repl fuel prev block = block := by
  intro block
  induction block with
  | nil => intro prev fuel _ _; exact applySubAux_nil try1 repl fuel prev
  | cons c bl ih =>
    intro prev fuel hfail hle
    cases fuel with
    | zero =>
      exfalso
      simp only [List.length_cons] at hle
      omega
    | succ f =>
      rw [applySubAux_skip try1 repl f prev c bl
        (hfail prev c bl (List.mem_cons_self c bl)),
        ih (some c) f
          (fun p' x l' hx => hfail p' x l' (List.mem_cons_of_mem c hx))
          (by simp only [List.length_cons] at hle; omega)]

theorem noLower_processed (ds : List Char)
    (h2 : ∀ c ∈ ds, isDigitC c = true) {X : Char}
    (hX : isDigitC X = false)
    (hpre : ∀ c ∈ "Processed ".data, c.toLower ≠ X)
    (hsuf : ∀ c ∈ " records".data, c.toLower ≠ X) :
    ∀ c ∈ "Processed ".data ++ ds ++ " records".data, c.toLower ≠ X := by
  intro c hc
  rcases List.mem_append.mp hc with hc1 | hc2
  · rcases List.mem_append.mp hc1 with hp | hd
    · exact hpre c hp
    · have hcd := h2 c hd
      rw [toLower_of_digit hcd]
      intro heq
      rw [heq] at hcd
      rw [hcd] at hX
      cases hX
  · exact hsuf c hc2

/-- The whole normalization pipeline turns `Processed <digits> records`
into `Processed <NUMBER> records`. -/
theorem normalizeMessage_processed (ds : List Char) (h1 : ds ≠ [])
    (h2 : ∀ c ∈ ds, isDigitC c = true) :
    normalizeMessage ("Processed " ++ String.mk ds ++ " records")
      = "Processed <NUMBER> records" := by
  have hdata : ("Processed " ++ String.mk ds ++ " records").data
      = "Processed ".data ++ ds ++ " records".data := by
    rw [String.data_append, String.data_append]
  unfold normalizeMessage normalizePasses
  rw [hdata]
  simp only [List.foldl]
  set fam := "Processed ".data ++ ds ++ " records".data with hfam
  have hiso : applySub tryIsoTs "<TIMESTAMP>".data fam = fam :=
    applySub_id _ _ fam (fun prev' cs' hs =>
      tryIsoTs_none (fun c hc => noLower_processed ds h2 (by decide)
        (by decide) (by decide) c (hs.subset hc)) prev')
  have hstd : applySub tryStdTs "<TIMESTAMP>".data fam = fam :=
    applySub_id _ _ fam (fun prev' cs' hs =>
      tryStdTs_none (fun c hc => noLower_processed ds h2 (by decide)
        (by decide) (by decide) c (hs.subset hc)) prev')
  have hip : applySub tryIp "<IP_ADDRESS>".data fam = fam :=
    applySub_id _ _ fam (fun prev' cs' hs =>
      tryIp_none (fun c hc => noLower_processed ds h2 (by decide)
        (by decide) (by decide) c (hs.subset hc)) prev')
  have huuid : applySub tryUuid "<UUID>".data fam = fam :=
    applySub_id _ _ fam (fun prev' cs' hs =>
      tryUuid_none (fun c hc => noLower_processed ds h2 (by decide)
        (by decide) (by decide) c (hs.subset hc)) prev')
  rw [hiso, hstd, hip, huuid]
  have hnum : applySub tryNumber "<NUMBER>".data fam
      = "Processed <NUMBER> records".data := by
    unfold applySub
    rw [hfam, List.append_assoc]
    have hlen10 : ("Processed ".data ++ (ds ++ " records".data)).length
        = 10 + (ds ++ " records".data).length := by
      rw [List.length_append,
        show ("Processed ".data).length = 10 from by decide]
    rw [hlen10]
    rw [applySubAux_skip_block tryNumber "<NUMBER>".data
      "Processed ".data (ds ++ " records".data) none
      (10 + (ds ++ " records".data).length)
      (fun p' c l' hc => tryNumber_head_nondigit
        (by revert c hc; decide) p' l')
      (by rw [show ("Processed ".data).length = 10 from by decide])]
    rw [show (10 + (ds ++ " records".data).length
      - ("Processed ".data).length) = (ds ++ " records".data).length from
      by rw [show ("Processed ".data).length = 10 from by decide]; omega]
    rw [show lastOr none "Processed ".data = some ' ' from by decide]
    obtain ⟨d, ds', rfl⟩ := List.exists_cons_of_ne_nil h1
    have htry : tryNumber (some ' ') ((d :: ds') ++ " records".data)
        = some (ds'.length + 1) := by
      rw [show ds'.length + 1 = (d :: ds').length from rfl]
      exact tryNumber_match h1 h2 (by decide)
        (fun c cs2 hc => by
          have : c = ' ' := by
            have := congrArg (fun l => l.head?) hc
            simpa using this.symm
          rw [this]
          decide)
        (by decide)
    have hfuel2 : ((d :: ds') ++ " records".data).length
        = (ds'.length + 8) + 1 := by
      rw [List.length_append, List.length_cons,
        show (" records".data).length = 8 from by decide]
    rw [hfuel2]
    rw [show (d :: ds') ++ " records".data
      = d :: (ds' ++ " records".data) from rfl] at htry ⊢
    rw [applySubAux_match tryNumber "<NUMBER>".data (ds'.length + 8)
      (some ' ') d (ds' ++ " records".data) ds'.length htry]
    rw [show List.drop (ds'.length + 1) (d :: (ds' ++ " records".data))
      = " records".data from by
        rw [show (ds'.length + 1) = (d :: ds').length from rfl,
          show d :: (ds' ++ " records".data)
            = (d :: ds') ++ " records".data from rfl]
        exact List.drop_left (d :: ds') " records".data]
    rw [applySubAux_skip_all tryNumber "<NUMBER>".data
      " records".data ((d :: (ds' ++ " records".data)).get? ds'.length)
      (ds'.length + 8)
      (fun p' c l' hc => tryNumber_head_nondigit
        (by revert c hc; decide) p' l')
      (by rw [show (" records".data).length = 8 from by decide]; omega)]
    decide
  rw [hnum]
  rw [show applySub tryEmail "<EMAIL>".data
    "Processed <NUMBER> records".data
    = "Processed <NUMBER> records".data from by decide]
  rw [show applySub tryApiPath "/api/<RESOURCE>/<ID>".data
    "Processed <NUMBER> records".data
    = "Processed <NUMBER> records".data from by decide]
  rw [show applySub tryUserId "user_id=<USER_ID>".data
    "Processed <NUMBER> records".data
    = "Processed <NUMBER> records".data from by decide]

/-- C8 counterexample: two messages differing only in an embedded email
address (both matching the email pattern) need not normalize
identically — the number pattern runs before the email pattern and
rewrites an all-digit local part first, after which the email no longer
matches. -/
theorem normalize_email_order_dependent :
    normalizeMessage "User 123@x.com logged in"
      ≠ normalizeMessage "User abc@x.com logged in" ∧
    normalizeMessage "User 123@x.com logged in"
      = "User <NUMBER>@x.com logged in" ∧
    normalizeMessage "User abc@x.com logged in"
      = "User <EMAIL> logged in" := by
  refine ⟨?_, by decide, by decide⟩
  decide

/-- C8 (amended): the signature is a deterministic function of the
normalized message — messages with equal normalizations always hash
identically. The universal invariance statement fails in both
directions shown here: messages differing only in an embedded email
address can normalize differently (the email counterexample), and even
messages differing only in an embedded digit run delimited by word
boundaries can normalize differently when the run abuts
timestamp-shaped text — `x 1234-12-12T12:12:12 y` normalizes to
`x <TIMESTAMP> y` while `x 12345-12-12T12:12:12 y` normalizes to
`x <NUMBER><TIMESTAMP> y`, although `1234` and `12345` are both digit
runs with word boundaries. A restricted positive form holds: every
message of the shape `Processed <digits> records` normalizes to
`Processed <NUMBER> records`, so any two of them get the identical
signature regardless of the digit run. -/
theorem createPatternSignature_spec :
    (∀ (hashF : String → String) (m1 m2 : String),
      normalizeMessage m1 = normalizeMessage m2 →
      createPatternSignature hashF m1 = createPatternSignature hashF m2) ∧
    (∀ (hashF : String → String) (ds1 ds2 : List Char),
      ds1 ≠ [] → ds2 ≠ [] →
      (∀ c ∈ ds1, isDigitC c = true) → (∀ c ∈ ds2, isDigitC c = true) →
      createPatternSignature hashF
          ("Processed " ++ String.mk ds1 ++ " records")
        = createPatternSignature hashF
            ("Processed " ++ String.mk ds2 ++ " records")) ∧
    (normalizeMessage "x 1234-12-12T12:12:12 y" = "x <TIMESTAMP> y" ∧
      normalizeMessage "x 12345-12-12T12:12:12 y"
        = "x <NUMBER><TIMESTAMP> y" ∧
      normalizeMessage "x 1234-12-12T12:12:12 y"
        ≠ normalizeMessage "x 12345-12-12T12:12:12 y") := by
  refine ⟨?_, ?_, by decide, by decide, by decide⟩
  · intro hashF m1 m2 h
    unfold createPatternSignature
    rw [h]
  · intro hashF ds1 ds2 h1 h2 hd1 hd2
    unfold createPatternSignature
    rw [normalizeMessage_processed ds1 h1 hd1,
      normalizeMessage_processed ds2 h2 hd2]

/-- C8 witness: `Processed 123 records` and `Processed 7 records` get
the same signature under any hash. -/
theorem createPatternSignature_spec_witness :
    createPatternSignature (fun s => s)
        ("Processed " ++ String.mk ['1', '2', '3'] ++ " records")
      = createPatternSignature (fun s => s)
          ("Processed " ++ String.mk ['7'] ++ " records") :=
  createPatternSignature_spec.2.1 (fun s => s) ['1', '2', '3'] ['7']
    (by decide) (by decide) (by decide) (by decide)

end LivyFlow
